import Mathlib

/-!
Verification development for the budget travel itinerary generator.

The definitions below are shallow embeddings of the TypeScript source files:
the currency parsing/formatting utility and the budget optimizer
(`budget.ts`), the synthetic weather generator (the maps/weather route),
and the fail-soft catch wrappers of the inventory generators
(`flights.ts`, `hotels.ts`, `activities.ts`, `maps.ts`).

Modelling conventions:
* JavaScript numbers are modelled as exact rationals (`ℚ`);
* strings are Lean `String`s, with the character-level work done on
  `List Char` (a `String` is its list of characters);
* `Math.round` is `⌊q + 1/2⌋` (round half towards positive infinity,
  which agrees with JS on every input including negatives);
* `Intl.NumberFormat` rounding to two fraction digits uses the default
  `halfExpand` (round half away from zero) mode;
* `parseFloat` is embedded without the exponent / `Infinity` forms, which
  never occur in the currency strings this program manipulates.
-/

namespace Travel

/-! ## Currency utility: `parseCurrency` / `formatCurrency` -/

/-- The characters removed by `parseCurrency`, from the source regex
`/[$,€£¥]/g` (dollar sign, comma, euro, pound, yen). -/
def stripChars : List Char := ['$', ',', '€', '£', '¥']

/-- ASCII decimal digit test: 48 ≤ code ≤ 57. -/
def isDigitChar (c : Char) : Bool := 48 ≤ c.toNat && c.toNat ≤ 57

/-- Numeric value of a digit character. -/
def digitVal (c : Char) : ℕ := c.toNat - 48

/-- Digit character of a value `d < 10`. -/
def digitChar (d : ℕ) : Char := Char.ofNat (48 + d)

/-- Value of a little-endian digit-character list (head = least significant). -/
def valLE : List Char → ℕ
  | [] => 0
  | c :: tl => digitVal c + 10 * valLE tl

/-- Value of a big-endian digit-character list, as `parseFloat` accumulates it. -/
def charsVal (cs : List Char) : ℕ := cs.foldl (fun a c => 10 * a + digitVal c) 0

/-- Little-endian decimal digits of a natural number, with explicit fuel
(the fuel `n` itself always suffices). -/
def natDigitsAux (fuel n : ℕ) : List Char :=
  if fuel = 0 then []
  else if n = 0 then []
  else digitChar (n % 10) :: natDigitsAux (fuel - 1) (n / 10)
  termination_by fuel
  decreasing_by omega

/-- Little-endian decimal digit characters of `n` (empty for `0`). -/
def natToCharsLE (n : ℕ) : List Char := natDigitsAux n n

/-- `en-US` digit grouping on a little-endian digit list: a comma after
every three digits when more digits remain. -/
def groupLE : List Char → List Char
  | a :: b :: c :: d :: rest => a :: b :: c :: ',' :: groupLE (d :: rest)
  | l => l

/-- The whitespace recognised by `trim` / leading-space skipping of
`parseFloat` (the forms that can actually occur here). -/
def jsWhitespace (c : Char) : Bool := c == ' ' || c == '\t' || c == '\n' || c == '\r'

/-- `String.prototype.trim` on a character list. -/
def trimL (cs : List Char) : List Char :=
  ((cs.dropWhile jsWhitespace).reverse.dropWhile jsWhitespace).reverse

/-- JS `parseFloat` on a character list: skip leading whitespace, optional
sign, integer digits, optional `.` and fraction digits; `none` models `NaN`
(no digit found).  Exponent and `Infinity` forms are not modelled; they never
occur in this program's currency strings. -/
def parseFloatL (cs : List Char) : Option ℚ :=
  let cs₀ := cs.dropWhile jsWhitespace
  let neg : Bool := cs₀.head?.any (fun c => c == '-')
  let hasSign : Bool := cs₀.head?.any (fun c => c == '-' || c == '+')
  let cs₁ : List Char := if hasSign then cs₀.tail else cs₀
  let ip := cs₁.takeWhile isDigitChar
  let rest := cs₁.dropWhile isDigitChar
  let fp : List Char := match rest with
    | '.' :: r => r.takeWhile isDigitChar
    | _ => []
  if ip = [] ∧ fp = [] then none
  else some ((if neg then (-1 : ℚ) else 1) * ((charsVal ip : ℚ) + (charsVal fp : ℚ) / 10 ^ fp.length))

/-- `parseCurrency` on a character list: empty (falsy) input gives `0`;
otherwise remove the currency symbols and commas, trim, `parseFloat`,
and `|| 0` maps a `NaN` result back to `0`. -/
def parseCurrencyL (cs : List Char) : ℚ :=
  if cs = [] then 0
  else
    match parseFloatL (trimL (cs.filter (fun c => !decide (c ∈ stripChars)))) with
    | some q => q
    | none => 0

/-- `parseCurrency(currencyString)` from the source. -/
def parseCurrency (s : String) : ℚ := parseCurrencyL s.data

/-- The cent count `Intl.NumberFormat` rounds an amount to: two fraction
digits, half away from zero. -/
def roundCents (q : ℚ) : ℤ :=
  if 0 ≤ q then ⌊q * 100 + 1 / 2⌋ else -⌊-q * 100 + 1 / 2⌋

/-- An amount rounded to two decimal places. -/
def round2 (q : ℚ) : ℚ := (roundCents q : ℚ) / 100

/-- `formatCurrency` on the character level: optional sign, `$`, the
comma-grouped integer part, `.`, and exactly two fraction digits. -/
def formatCurrencyL (q : ℚ) : List Char :=
  let cents := roundCents q
  let na := cents.natAbs
  let intPart := na / 100
  let frac := na % 100
  let intChars := (groupLE (if intPart = 0 then ['0'] else natToCharsLE intPart)).reverse
  let fracChars := [digitChar (frac / 10), digitChar (frac % 10)]
  (if cents < 0 then ['-'] else []) ++ '$' :: (intChars ++ '.' :: fracChars)

/-- `formatCurrency(amount)` from the source (`Intl.NumberFormat('en-US',
{style: 'currency', currency: 'USD', minimumFractionDigits: 2,
maximumFractionDigits: 2})`). -/
def formatCurrency (q : ℚ) : String := ⟨formatCurrencyL q⟩

/-- An amount that is a whole number of cents. -/
def centAligned (q : ℚ) : Prop := (q * 100).den = 1

instance : DecidablePred centAligned := fun q => inferInstanceAs (Decidable ((q * 100).den = 1))

/-! ## Itinerary data model (the `utils.ts` interfaces) -/

structure Activity where
  name : String
  description : String
  cost : String
  type : String
  location : String
  duration : String
  imageUrl : Option String := none
deriving Repr, DecidableEq

structure Accommodation where
  name : String
  location : String
  cost : String
  imageUrl : Option String := none
deriving Repr, DecidableEq

structure Transportation where
  type : String
  details : String
  cost : String
deriving Repr, DecidableEq

structure Day where
  date : String
  activities : List Activity
  accommodation : Accommodation
  transportation : Transportation
  alternativeActivities : Option (List Activity) := none
deriving Repr, DecidableEq

structure Itinerary where
  destination : String
  totalCost : String
  duration : String
  days : List Day
  travelTips : List String
deriving Repr, DecidableEq

/-! ## Budget optimizer (`budget.ts`) -/

structure BudgetBreakdown where
  accommodation : ℚ
  activities : ℚ
  transportation : ℚ
deriving Repr, DecidableEq

/-- `analyzeBudgetAllocation`: per-category cost totals accumulated over all
days (the source's `forEach` loops compute exactly these sums). -/
def analyzeBudgetAllocation (itinerary : Itinerary) : BudgetBreakdown where
  accommodation := (itinerary.days.map (fun day => parseCurrency day.accommodation.cost)).sum
  activities :=
    (itinerary.days.map (fun day => (day.activities.map (fun a => parseCurrency a.cost)).sum)).sum
  transportation := (itinerary.days.map (fun day => parseCurrency day.transportation.cost)).sum

/-- `Math.min(savingsNeeded / total, cap)`.  In JS, division of a positive
number by zero gives `Infinity` and the `min` returns the cap; the zero-total
case models that (the only path reaching this computation has
`savingsNeeded > 0`). -/
def reductionPercentage (savingsNeeded total cap : ℚ) : ℚ :=
  if total = 0 then cap else min (savingsNeeded / total) cap

/-- `optimizeAccommodation`: every day's accommodation cost is multiplied by
`(1 - reduction)` and reformatted; the cap is `0.5`. -/
def optimizeAccommodation (days : List Day) (savingsNeeded totalAccommodationCost : ℚ) :
    List Day :=
  let reduction := reductionPercentage savingsNeeded totalAccommodationCost (1/2)
  days.map fun day =>
    { day with accommodation :=
        { day.accommodation with
            cost := formatCurrency (parseCurrency day.accommodation.cost * (1 - reduction)) } }

/-- `optimizeTransportation`: as for accommodation, with cap `0.45`. -/
def optimizeTransportation (days : List Day) (savingsNeeded totalTransportationCost : ℚ) :
    List Day :=
  let reduction := reductionPercentage savingsNeeded totalTransportationCost (9/20)
  days.map fun day =>
    { day with transportation :=
        { day.transportation with
            cost := formatCurrency (parseCurrency day.transportation.cost * (1 - reduction)) } }

/-- Pair each activity with its position.  The position stands for the array
slot (JS object identity): `[...day.activities]` copies the array but shares
the activity objects, so the in-place cost updates below are visible through
both lists. -/
def enumActs : ℕ → List Activity → List (ℕ × Activity)
  | _, [] => []
  | i, a :: tl => (i, a) :: enumActs (i + 1) tl

/-- Stable insertion into a list sorted by descending parsed cost.  The JS
comparator is `(a, b) => parseCurrency(b.cost) - parseCurrency(a.cost)`; a
consistent comparator makes `Array.prototype.sort` produce the unique stable
descending order, which insertion before the first strictly-cheaper element
reproduces. -/
def insertDescCost (x : ℕ × Activity) : List (ℕ × Activity) → List (ℕ × Activity)
  | [] => [x]
  | y :: ys =>
      if parseCurrency y.2.cost ≤ parseCurrency x.2.cost then x :: y :: ys
      else y :: insertDescCost x ys

/-- `[...day.activities].sort((a, b) => parseCurrency(b.cost) - parseCurrency(a.cost))`. -/
def sortActivitiesDesc (acts : List Activity) : List (ℕ × Activity) :=
  (enumActs 0 acts).foldr insertDescCost []

/-- The iteration order of the inner `forEach` with its boost flag:
`index === 0` boosts only the first element of the sorted list. -/
def boostFlags : List (ℕ × Activity) → List (ℕ × Bool)
  | [] => []
  | x :: tl => (x.1, true) :: tl.map (fun y => (y.1, false))

/-- `day.activities.findIndex(a => a.name === activity.name)`; `none` models
the `-1` result. -/
def findIndexByName (nm : String) : List Activity → Option ℕ
  | [] => none
  | a :: tl => if a.name == nm then some 0 else (findIndexByName nm tl).map (· + 1)

/-- `day.activities[originalIndex].cost = ...` (in-place slot update). -/
def setActivityCost (acts : List Activity) (i : ℕ) (cost : String) : List Activity :=
  match acts.get? i with
  | some a => acts.set i { a with cost := cost }
  | none => acts

/-- One iteration of `sortedActivities.forEach((activity, index) => ...)`:
`p.1` is the array slot holding the iterated object (whose current cost is
read), `p.2` is `index === 0`. -/
def applyActivityReduction (reduction : ℚ) (acts : List Activity) (p : ℕ × Bool) :
    List Activity :=
  match acts.get? p.1 with
  | none => acts
  | some activity =>
      let currentCost := parseCurrency activity.cost
      let adjustedReduction := reduction * (1 + (if p.2 then (2 : ℚ)/10 else 0))
      let reducedCost := currentCost * (1 - adjustedReduction)
      match findIndexByName activity.name acts with
      | some originalIndex => setActivityCost acts originalIndex (formatCurrency reducedCost)
      | none => acts

/-- The per-day body of `optimizeActivities`. -/
def optimizeActivitiesDay (reduction : ℚ) (day : Day) : Day :=
  let newActivities :=
    (boostFlags (sortActivitiesDesc day.activities)).foldl
      (applyActivityReduction reduction) day.activities
  { day with activities := newActivities }

/-- `optimizeActivities`: cap `0.4`, with the extra `×1.2` boost applied by
`applyActivityReduction` at sorted index 0. -/
def optimizeActivities (days : List Day) (savingsNeeded totalActivitiesCost : ℚ) : List Day :=
  days.map (optimizeActivitiesDay (reductionPercentage savingsNeeded totalActivitiesCost (2/5)))

/-- `addBudgetAlternatives`: every day receives an `alternativeActivities`
list cloning each activity at 60% of its cost. -/
def addBudgetAlternatives (days : List Day) : List Day :=
  days.map fun day =>
    { day with alternativeActivities := some (day.activities.map fun activity =>
        { activity with
            name := "Budget " ++ activity.name
            description := "A more affordable version of " ++ activity.name ++ "."
            cost := formatCurrency (parseCurrency activity.cost * (6/10)) }) }

/-- `calculateTotalCost`: accommodation + transportation + activity costs,
summed over all days (`alternativeActivities` is not counted). -/
def calculateTotalCost (days : List Day) : ℚ :=
  (days.map fun day =>
    parseCurrency day.accommodation.cost + parseCurrency day.transportation.cost +
      (day.activities.map fun activity => parseCurrency activity.cost).sum).sum

/-- The `try`-block of `optimizeBudget`.  The one genuinely fallible step,
`JSON.parse(JSON.stringify(itinerary))`, is abstracted as the `copy`
argument; everything else is total.  An `error` result is the case in which
the JS body would throw. -/
def optimizeBudgetBody (copy : Itinerary → Except Unit Itinerary)
    (itinerary : Itinerary) (totalBudget : ℚ) : Except Unit Itinerary :=
  let currentCost := parseCurrency itinerary.totalCost
  if currentCost ≤ totalBudget then Except.ok itinerary
  else
    let savingsNeeded := currentCost - totalBudget
    match copy itinerary with
    | Except.error e => Except.error e
    | Except.ok optimizedItinerary =>
        let budgetBreakdown := analyzeBudgetAllocation optimizedItinerary
        let newDays :=
          if budgetBreakdown.accommodation > budgetBreakdown.activities ∧
              budgetBreakdown.accommodation > budgetBreakdown.transportation then
            optimizeAccommodation optimizedItinerary.days savingsNeeded
              budgetBreakdown.accommodation
          else if budgetBreakdown.activities > budgetBreakdown.transportation then
            optimizeActivities optimizedItinerary.days savingsNeeded
              budgetBreakdown.activities
          else
            optimizeTransportation optimizedItinerary.days savingsNeeded
              budgetBreakdown.transportation
        Except.ok { optimizedItinerary with
          days := addBudgetAlternatives newDays
          totalCost := formatCurrency (calculateTotalCost newDays) }

/-- `optimizeBudget`'s `try/catch`: a thrown body returns the original
itinerary unchanged. -/
def optimizeBudgetWith (copy : Itinerary → Except Unit Itinerary)
    (itinerary : Itinerary) (totalBudget : ℚ) : Itinerary :=
  match optimizeBudgetBody copy itinerary totalBudget with
  | Except.ok result => result
  | Except.error _ => itinerary

/-- `JSON.parse(JSON.stringify(itinerary))` on this plain-data tree is the
identity whenever it succeeds. -/
def jsonDeepCopy (itinerary : Itinerary) : Except Unit Itinerary := Except.ok itinerary

/-- `optimizeBudget(itinerary, totalBudget)` from the source. -/
def optimizeBudget (itinerary : Itinerary) (totalBudget : ℚ) : Itinerary :=
  optimizeBudgetWith jsonDeepCopy itinerary totalBudget

/-- Every cost string of the itinerary parses to a whole number of cents. -/
def centCosts (itinerary : Itinerary) : Prop :=
  ∀ day ∈ itinerary.days,
    centAligned (parseCurrency day.accommodation.cost) ∧
    centAligned (parseCurrency day.transportation.cost) ∧
    ∀ activity ∈ day.activities, centAligned (parseCurrency activity.cost)

instance (itinerary : Itinerary) : Decidable (centCosts itinerary) := by
  unfold centCosts; infer_instance

/-! ## Weather generator (`generateMockWeatherData`) -/

structure JSDate where
  year : ℕ
  monthIndex : ℕ
  dayOfMonth : ℕ
deriving Repr, DecidableEq

structure Temperature where
  min : ℤ
  max : ℤ
  current : ℤ
deriving Repr, DecidableEq

structure WeatherData where
  date : String
  temperature : Temperature
  description : String
  wind_speed : ℤ
  humidity : ℤ
  condition : String
  precipitation_chance : ℤ
deriving Repr, DecidableEq

/-- `Math.round`: round half towards positive infinity, as JS does on every
input (including negatives). -/
def jsRound (q : ℚ) : ℤ := ⌊q + 1/2⌋

def pad2 (n : ℕ) : String := if n < 10 then "0" ++ toString n else toString n

def pad4 (n : ℕ) : String :=
  if n < 10 then "000" ++ toString n
  else if n < 100 then "00" ++ toString n
  else if n < 1000 then "0" ++ toString n
  else toString n

/-- `date.toISOString().split('T')[0]` (UTC date, `getMonth()` is 0-based). -/
def isoDateString (d : JSDate) : String :=
  pad4 d.year ++ "-" ++ pad2 (d.monthIndex + 1) ++ "-" ++ pad2 d.dayOfMonth

/-- `Array.from(location.toLowerCase()).reduce((hash, char) =>
char.charCodeAt(0) + hash, 0)`. -/
def locationHashOf (location : String) : ℕ :=
  (location.data.map (fun c => c.toLower.toNat)).sum

/-- The `descriptions` record of the weather generator. -/
def weatherDescriptions (condition : String) : List String :=
  if condition = "sunny" then ["Clear skies", "Sunny", "Bright and sunny", "Warm and clear"]
  else if condition = "partly-cloudy" then ["Partly cloudy", "Some clouds", "Mostly sunny"]
  else if condition = "cloudy" then ["Overcast", "Cloudy skies", "Overcast conditions"]
  else if condition = "rainy" then ["Light rain", "Showers", "Rainy", "Precipitation expected"]
  else if condition = "snowy" then ["Light snow", "Snowfall", "Snow showers", "Snowy conditions"]
  else ["Thunderstorms", "Stormy conditions", "Thunder and lightning"]

/-- `generateMockWeatherData(location, date)`.  `jsSin` abstracts `Math.sin`
(an implementation-approximated function in JS); `rnd k` is the value of the
`k`-th `Math.random()` call of the body, in source order: min temperature (0),
current temperature (1), rain chance (2), description choice (3), wind
speed (4), humidity (5).  An out-of-range description index (impossible for a
real `Math.random` value in `[0, 1)`) yields the empty string. -/
def generateMockWeatherData (jsSin : ℚ → ℚ) (rnd : ℕ → ℚ)
    (location : String) (date : JSDate) : WeatherData :=
  let locationHash := locationHashOf location
  let baseTemp : ℚ := 10 + (locationHash % 25 : ℕ)
  let rainfall : ℚ := (locationHash % 10 : ℕ) / 10
  let month := date.monthIndex
  let seasonalTemp : ℚ :=
    if 5 ≤ month ∧ month ≤ 8 then 8
    else if 11 ≤ month ∨ month ≤ 2 then -8
    else 0
  let dayVariation : ℚ := (jsSin ((date.dayOfMonth * locationHash : ℕ) : ℚ) + 1) * 3
  let maxTemp : ℤ := jsRound (baseTemp + seasonalTemp + dayVariation)
  let minTemp : ℤ := jsRound ((maxTemp : ℚ) - (5 + rnd 0 * 5))
  let currentTemp : ℤ :=
    jsRound ((minTemp : ℚ) + ((maxTemp : ℚ) - (minTemp : ℚ)) * (3/10 + rnd 1 * (4/10)))
  let rainChance : ℤ := jsRound ((rainfall + rnd 2 * (1/2)) * 100)
  let condition0 : String :=
    if rainChance > 70 then "rainy"
    else if rainChance > 40 then "cloudy"
    else if rainChance > 20 then "partly-cloudy"
    else "sunny"
  let condition : String :=
    if condition0 = "rainy" ∧ maxTemp < 2 then "snowy" else condition0
  let descs := weatherDescriptions condition
  let description := descs.getD (⌊rnd 3 * (descs.length : ℚ)⌋).toNat ""
  let windSpeed : ℤ :=
    if condition = "stormy" then 30 + jsRound (rnd 4 * 30)
    else if condition = "rainy" ∨ condition = "snowy" then 10 + jsRound (rnd 4 * 20)
    else 5 + jsRound (rnd 4 * 15)
  let humidity : ℤ :=
    if condition = "rainy" ∨ condition = "snowy" ∨ condition = "stormy" then
      70 + jsRound (rnd 5 * 25)
    else if condition = "cloudy" then 50 + jsRound (rnd 5 * 30)
    else 30 + jsRound (rnd 5 * 30)
  { date := isoDateString date
    temperature := { min := minTemp, max := maxTemp, current := currentTemp }
    description := description
    wind_speed := windSpeed
    humidity := humidity
    condition := condition
    precipitation_chance := rainChance }

/-! ## Inventory generator error-handling wrappers

Each search function wraps its whole body in `try/catch`.  The body's
computation is abstracted here as its `Except`-valued outcome (`error` is the
case in which the JS body would throw); the `catch` clause is translated
literally. -/

structure Layover where
  airport : String
  duration : String
deriving Repr, DecidableEq

structure Flight where
  id : String
  airline : String
  flightNumber : String
  departureAirport : String
  departureCity : String
  arrivalAirport : String
  arrivalCity : String
  departureTime : String
  arrivalTime : String
  duration : String
  stops : ℕ
  price : ℚ
  currency : String
  cabinClass : String
  layovers : Option (List Layover) := none
deriving Repr, DecidableEq

structure Hotel where
  id : String
  name : String
  description : String
  address : String
  city : String
  country : String
  price : ℚ
  currency : String
  pricePerNight : ℚ
  rating : ℚ
  reviewCount : ℕ
  amenities : List String
  roomType : String
  imageUrl : String
  latitude : Option ℚ := none
  longitude : Option ℚ := none
  distanceFromCenter : Option String := none
  cancellationPolicy : Option String := none
  checkIn : Option String := none
  checkOut : Option String := none
  numberOfGuests : Option ℕ := none
  numberOfRooms : Option ℕ := none
deriving Repr, DecidableEq

/-- The `activities.ts` Activity interface (named `ActivityItem` here because
`Activity` already names the itinerary's activity shape from `utils.ts`). -/
structure ActivityItem where
  id : String
  name : String
  description : String
  category : String
  subcategories : List String
  location : String
  address : String
  city : String
  price : ℚ
  currency : String
  duration : String
  rating : ℚ
  reviewCount : ℕ
  imageUrl : String
  openingHours : Option String := none
  bookingRequired : Option Bool := none
  latitude : Option ℚ := none
  longitude : Option ℚ := none
  distanceFromCenter : Option String := none
  suitableFor : Option (List String) := none
  highlights : Option (List String) := none
  tags : Option (List String) := none
deriving Repr, DecidableEq

structure LocationData where
  placeId : String
  name : String
  address : String
  latitude : ℚ
  longitude : ℚ
  types : List String
  rating : Option ℚ := none
  photos : Option (List String) := none
  formattedAddress : Option String := none
  website : Option String := none
  phoneNumber : Option String := none
  openingHours : Option (List String) := none
deriving Repr, DecidableEq

structure MapData where
  mainLocation : LocationData
  nearbyAttractions : List LocationData
  travelTimes : List (String × List (String × ℤ))
deriving Repr, DecidableEq

/-- `searchFlights`: `catch (error) { ... return []; }`. -/
def searchFlightsWith (body : Except Unit (List Flight)) : List Flight :=
  match body with
  | Except.ok flights => flights
  | Except.error _ => []

/-- `searchHotels`: `catch (error) { ... return []; }`. -/
def searchHotelsWith (body : Except Unit (List Hotel)) : List Hotel :=
  match body with
  | Except.ok hotels => hotels
  | Except.error _ => []

/-- `findActivities`: `catch (error) { ... return []; }`. -/
def findActivitiesWith (body : Except Unit (List ActivityItem)) : List ActivityItem :=
  match body with
  | Except.ok activities => activities
  | Except.error _ => []

/-- `getMapData`: its `catch` does not return an empty value — it throws a
fresh error (`throw new Error('Failed to fetch map data for destination')`),
so a failure propagates to the caller. -/
def getMapDataWith (body : Except Unit MapData) : Except Unit MapData :=
  match body with
  | Except.ok mapData => Except.ok mapData
  | Except.error _ => Except.error ()

/-- The observable cost fields of a day: accommodation cost, transportation
cost, and the activity cost list. -/
def dayCostTriple (d : Day) : String × String × List String :=
  (d.accommodation.cost, d.transportation.cost, d.activities.map Activity.cost)

/-! ## Concrete inputs used by witnesses and counterexamples -/

/-- An itinerary with no days whose `totalCost` parses to `0`. -/
def itinW : Itinerary :=
  { destination := "Paris", totalCost := "$0.00", duration := "1 days", days := [],
    travelTips := [] }

/-- An itinerary with no days whose `totalCost` parses to `10`: its stored
total does not match the (empty) sum of its day costs. -/
def itinBad : Itinerary :=
  { destination := "Nowhere", totalCost := "$10.00", duration := "1 days", days := [],
    travelTips := [] }

def actMuseumTour : Activity :=
  { name := "Museum Tour", description := "Guided visit", cost := "$100.00",
    type := "Cultural", location := "Center", duration := "2 hours" }

def actMuseum : Activity :=
  { name := "Museum", description := "Visit", cost := "$30.00",
    type := "Cultural", location := "Center", duration := "2 hours" }

def actPark : Activity :=
  { name := "Park", description := "Stroll", cost := "$10.00",
    type := "Nature", location := "East", duration := "1 hours" }

def actWalkingTour : Activity :=
  { name := "Walking Tour", description := "Old town", cost := "$10.00",
    type := "Sightseeing", location := "Center", duration := "2 hours" }

def accZero : Accommodation := { name := "Hostel", location := "Center", cost := "$0.00" }

def accTen : Accommodation := { name := "Inn", location := "Center", cost := "$10.00" }

def transZero : Transportation := { type := "Metro", details := "Day pass", cost := "$0.00" }

/-- One day with a single `$100.00` activity and zero-cost accommodation and
transportation. -/
def dayA : Day :=
  { date := "2024-06-01", activities := [actMuseumTour], accommodation := accZero,
    transportation := transZero }

/-- One day with two distinct-name activities costing `$30.00` and `$10.00`. -/
def dayB : Day :=
  { date := "2024-06-02", activities := [actMuseum, actPark], accommodation := accZero,
    transportation := transZero }

/-- A day with accommodation `$10.00`, one `$10.00` activity and free
transportation. -/
def dayTie : Day :=
  { date := "2024-06-01", activities := [actWalkingTour], accommodation := accTen,
    transportation := transZero }

/-- An itinerary whose accommodation total equals its activities total
(both `10`) while transportation is `0`, and whose stored total `$20.00`
exceeds the test budget `15`. -/
def itinTie : Itinerary :=
  { destination := "Rome", totalCost := "$20.00", duration := "1 days", days := [dayTie],
    travelTips := [] }

/-- A deep copy that always fails (models a throwing
`JSON.parse(JSON.stringify(...))`). -/
def copyFail : Itinerary → Except Unit Itinerary := fun _ => Except.error ()

/-- A `Math.random` stream that always yields `0`. -/
def rndZero : ℕ → ℚ := fun _ => 0

/-- A `Math.random` stream that always yields `1/2`. -/
def rndHalf : ℕ → ℚ := fun _ => 1/2

/-- A `Math.sin` approximation that is constantly `0` (any fixed
approximation works for the statements below). -/
def sinZero : ℚ → ℚ := fun _ => 0

/-- June 15, 2024 (`getMonth() = 5`, `getDate() = 15`). -/
def dateJune : JSDate := { year := 2024, monthIndex := 5, dayOfMonth := 15 }

example : formatCurrency 1234.5 = "$1,234.50" := by
  have h : roundCents (1234.5 : ℚ) = 123450 := by
    norm_num [roundCents, Int.floor_eq_iff]
  simp +decide [formatCurrency, formatCurrencyL, h, natToCharsLE, natDigitsAux,
    digitChar, groupLE]

example : formatCurrency 0 = "$0.00" := by
  have h : roundCents (0 : ℚ) = 0 := by
    norm_num [roundCents, Int.floor_eq_iff]
  simp +decide [formatCurrency, formatCurrencyL, h, natToCharsLE, natDigitsAux,
    digitChar, groupLE]

example : formatCurrency (-5) = "-$5.00" := by
  have h : roundCents (-5 : ℚ) = -500 := by
    norm_num [roundCents, Int.floor_eq_iff]
  simp +decide [formatCurrency, formatCurrencyL, h, natToCharsLE, natDigitsAux,
    digitChar, groupLE]

example : parseCurrency "$1,234.50" = 1234.5 := by
  simp +decide [parseCurrency, parseCurrencyL, parseFloatL, trimL, charsVal, digitVal,
    stripChars]
  norm_num

example : parseCurrency "" = 0 := by simp [parseCurrency, parseCurrencyL]

example : parseCurrency "abc" = 0 := by
  simp +decide [parseCurrency, parseCurrencyL, parseFloatL, trimL, stripChars]

example : parseCurrency "  €99.95 " = 99.95 := by
  simp +decide [parseCurrency, parseCurrencyL, parseFloatL, trimL, charsVal, digitVal,
    stripChars]
  norm_num

end Travel

namespace Travel

/-! ## Character and digit lemmas -/

theorem digitVal_digitChar {d : ℕ} (h : d < 10) : digitVal (digitChar d) = d := by
  interval_cases d <;> decide

theorem isDigitChar_digitChar {d : ℕ} (h : d < 10) : isDigitChar (digitChar d) = true := by
  interval_cases d <;> decide

theorem toNat_of_isDigitChar {c : Char} (h : isDigitChar c = true) :
    48 ≤ c.toNat ∧ c.toNat ≤ 57 := by
  unfold isDigitChar at h
  simpa [Bool.and_eq_true, decide_eq_true_eq] using h

theorem char_beq_false {c d : Char} (h : c.toNat ≠ d.toNat) : (c == d) = false := by
  apply beq_eq_false_iff_ne.mpr
  intro he
  exact h (by rw [he])

theorem digit_notMem_stripChars {c : Char} (h : isDigitChar c = true) : c ∉ stripChars := by
  obtain ⟨h1, h2⟩ := toNat_of_isDigitChar h
  intro hm
  fin_cases hm <;> first
    | exact absurd h1 (by decide)
    | exact absurd h2 (by decide)

theorem digit_not_ws {c : Char} (h : isDigitChar c = true) : jsWhitespace c = false := by
  obtain ⟨h1, h2⟩ := toNat_of_isDigitChar h
  unfold jsWhitespace
  rw [char_beq_false (by rw [show (' ').toNat = 32 by decide]; omega),
    char_beq_false (by rw [show ('\t').toNat = 9 by decide]; omega),
    char_beq_false (by rw [show ('\n').toNat = 10 by decide]; omega),
    char_beq_false (by rw [show ('\r').toNat = 13 by decide]; omega)]
  rfl

theorem digit_ne_dot {c : Char} (h : isDigitChar c = true) : (c == '.') = false := by
  obtain ⟨h1, _⟩ := toNat_of_isDigitChar h
  exact char_beq_false (by rw [show ('.').toNat = 46 by decide]; omega)

theorem digit_not_isDigit_dot : isDigitChar '.' = false := by decide

end Travel

namespace Travel

/-! ## Decimal digit printing lemmas -/

theorem valLE_natDigitsAux : ∀ fuel n : ℕ, n ≤ fuel → valLE (natDigitsAux fuel n) = n := by
  intro fuel
  induction fuel with
  | zero =>
      intro n h
      rw [natDigitsAux]
      simp only [if_true, reduceIte]
      simp [valLE]
      omega
  | succ f ih =>
      intro n h
      rw [natDigitsAux]
      by_cases hn : n = 0
      · simp [hn, valLE]
      · simp only [Nat.succ_ne_zero, if_false, hn, Nat.add_sub_cancel]
        rw [valLE, ih (n / 10) (by omega), digitVal_digitChar (Nat.mod_lt _ (by norm_num))]
        omega

theorem valLE_natToCharsLE (n : ℕ) : valLE (natToCharsLE n) = n :=
  valLE_natDigitsAux n n le_rfl

theorem mem_natDigitsAux_digit : ∀ fuel n : ℕ, ∀ c ∈ natDigitsAux fuel n, isDigitChar c = true := by
  intro fuel
  induction fuel with
  | zero =>
      intro n c hc
      rw [natDigitsAux] at hc
      simp at hc
  | succ f ih =>
      intro n c hc
      rw [natDigitsAux] at hc
      by_cases hn : n = 0
      · simp [hn] at hc
      · simp only [Nat.succ_ne_zero, if_false, hn, Nat.add_sub_cancel, List.mem_cons] at hc
        rcases hc with rfl | hc
        · exact isDigitChar_digitChar (Nat.mod_lt _ (by norm_num))
        · exact ih _ _ hc

theorem natToCharsLE_ne_nil {n : ℕ} (h : n ≠ 0) : natToCharsLE n ≠ [] := by
  unfold natToCharsLE
  rw [natDigitsAux]
  simp [h]

theorem charsVal_append_singleton (l : List Char) (c : Char) :
    charsVal (l ++ [c]) = 10 * charsVal l + digitVal c := by
  unfold charsVal
  rw [List.foldl_append]
  rfl

theorem charsVal_reverse : ∀ l : List Char, charsVal l.reverse = valLE l
  | [] => rfl
  | c :: tl => by
      rw [List.reverse_cons, charsVal_append_singleton, charsVal_reverse tl, valLE]
      omega

/-! ## Grouping and whitespace lemmas -/

theorem filter_groupLE (p : Char → Bool) (hcomma : p ',' = false) :
    ∀ l : List Char, (∀ c ∈ l, p c = true) → (groupLE l).filter p = l
  | [], _ => rfl
  | [a], h => by
      show List.filter p [a] = [a]
      simp [List.filter, h a (by simp)]
  | [a, b], h => by
      show List.filter p [a, b] = [a, b]
      simp [List.filter, h a (by simp), h b (by simp)]
  | [a, b, c], h => by
      show List.filter p [a, b, c] = [a, b, c]
      simp [List.filter, h a (by simp), h b (by simp), h c (by simp)]
  | a :: b :: c :: d :: rest, h => by
      show List.filter p (a :: b :: c :: ',' :: groupLE (d :: rest)) = a :: b :: c :: d :: rest
      have ih := filter_groupLE p hcomma (d :: rest)
        (fun x hx => h x (by simp only [List.mem_cons] at hx ⊢; tauto))
      simp [List.filter, h a (by simp), h b (by simp), h c (by simp), hcomma, ih]
  termination_by l => l.length
  decreasing_by simp

theorem dropWhile_eq_self_of (p : Char → Bool) :
    ∀ l : List Char, (∀ c ∈ l, p c = false) → l.dropWhile p = l
  | [], _ => rfl
  | c :: tl, h => by
      rw [List.dropWhile_cons, h c (by simp)]
      simp

theorem trimL_eq_self {l : List Char} (h : ∀ c ∈ l, jsWhitespace c = false) : trimL l = l := by
  unfold trimL
  rw [dropWhile_eq_self_of _ _ h,
    dropWhile_eq_self_of _ _ (fun c hc => h c (List.mem_reverse.mp hc)), List.reverse_reverse]

theorem takeWhile_append_of (p : Char → Bool) :
    ∀ (ds : List Char) (x : Char) (r : List Char), (∀ c ∈ ds, p c = true) → p x = false →
      (ds ++ x :: r).takeWhile p = ds ∧ (ds ++ x :: r).dropWhile p = x :: r
  | [], x, r, _, hx => by
      constructor
      · simp [List.takeWhile_cons, hx]
      · simp [List.dropWhile_cons, hx]
  | d :: ds, x, r, h, hx => by
      have hd := h d (by simp)
      have ih := takeWhile_append_of p ds x r (fun c hc => h c (by simp [hc])) hx
      constructor
      · simp only [List.cons_append, List.takeWhile_cons, hd, if_true]
        rw [ih.1]
      · simp only [List.cons_append, List.dropWhile_cons, hd, if_true]
        exact ih.2

end Travel

namespace Travel

/-! ## `parseFloat` on canonical formatted digits -/

theorem parseFloatL_digits_frac (ds : List Char) (c1 c2 : Char)
    (hds : ∀ c ∈ ds, isDigitChar c = true) (hne : ds ≠ [])
    (h1 : isDigitChar c1 = true) (h2 : isDigitChar c2 = true) :
    parseFloatL (ds ++ '.' :: [c1, c2]) =
      some ((charsVal ds : ℚ) + (charsVal [c1, c2] : ℚ) / 100) := by
  obtain ⟨d, ds', rfl⟩ : ∃ d ds', ds = d :: ds' := by
    cases ds with
    | nil => exact absurd rfl hne
    | cons d ds' => exact ⟨d, ds', rfl⟩
  have hnotws : ∀ c ∈ (d :: ds') ++ '.' :: [c1, c2], jsWhitespace c = false := by
    intro c hc
    simp only [List.mem_append, List.mem_cons, List.not_mem_nil, or_false] at hc
    rcases hc with (rfl | hc) | rfl | rfl | rfl
    · exact digit_not_ws (hds c (by simp))
    · exact digit_not_ws (hds c (by simp [hc]))
    · decide
    · exact digit_not_ws h1
    · exact digit_not_ws h2
  have hd := hds d (by simp)
  obtain ⟨hd1, hd2⟩ := toNat_of_isDigitChar hd
  have hdm : (d == '-') = false :=
    char_beq_false (by rw [show ('-').toNat = 45 by decide]; omega)
  have hdp : (d == '+') = false :=
    char_beq_false (by rw [show ('+').toNat = 43 by decide]; omega)
  have htake := takeWhile_append_of isDigitChar (d :: ds') '.' [c1, c2] hds (by decide)
  simp only [parseFloatL, dropWhile_eq_self_of jsWhitespace _ hnotws]
  simp only [List.cons_append, List.head?_cons, Option.any_some, hdm, hdp, Bool.or_self,
    Bool.false_or, if_false, Bool.false_eq_true, reduceIte]
  rw [show d :: (ds' ++ '.' :: [c1, c2]) = (d :: ds') ++ '.' :: [c1, c2] from rfl,
    htake.1, htake.2]
  simp only [List.takeWhile_cons, h1, h2, if_true, List.takeWhile_nil]
  simp only [List.cons_ne_nil, false_and, if_false, reduceIte, one_mul, List.length_cons,
    List.length_nil]
  norm_num

theorem parseFloatL_neg_digits_frac (ds : List Char) (c1 c2 : Char)
    (hds : ∀ c ∈ ds, isDigitChar c = true) (hne : ds ≠ [])
    (h1 : isDigitChar c1 = true) (h2 : isDigitChar c2 = true) :
    parseFloatL ('-' :: (ds ++ '.' :: [c1, c2])) =
      some (-((charsVal ds : ℚ) + (charsVal [c1, c2] : ℚ) / 100)) := by
  obtain ⟨d, ds', rfl⟩ : ∃ d ds', ds = d :: ds' := by
    cases ds with
    | nil => exact absurd rfl hne
    | cons d ds' => exact ⟨d, ds', rfl⟩
  have hnotws : ∀ c ∈ '-' :: ((d :: ds') ++ '.' :: [c1, c2]), jsWhitespace c = false := by
    intro c hc
    simp only [List.mem_cons, List.mem_append, List.not_mem_nil, or_false] at hc
    rcases hc with rfl | (rfl | hc) | rfl | rfl | rfl
    · decide
    · exact digit_not_ws (hds c (by simp))
    · exact digit_not_ws (hds c (by simp [hc]))
    · decide
    · exact digit_not_ws h1
    · exact digit_not_ws h2
  have htake := takeWhile_append_of isDigitChar (d :: ds') '.' [c1, c2] hds (by decide)
  simp only [parseFloatL, dropWhile_eq_self_of jsWhitespace _ hnotws]
  simp only [List.head?_cons, Option.any_some, List.tail_cons, beq_self_eq_true,
    Bool.true_or, if_true, reduceIte]
  rw [htake.1, htake.2]
  simp only [List.takeWhile_cons, h1, h2, if_true, List.takeWhile_nil]
  simp only [List.cons_ne_nil, false_and, if_false, reduceIte, List.length_cons,
    List.length_nil]
  norm_num

end Travel

namespace Travel

/-! ## Rounding and cent-alignment lemmas -/

theorem roundCents_intCast_div (k : ℤ) : roundCents ((k : ℚ) / 100) = k := by
  unfold roundCents
  by_cases h : (0 : ℚ) ≤ (k : ℚ) / 100
  · rw [if_pos h]
    have he : (k : ℚ) / 100 * 100 + 1 / 2 = (k : ℚ) + 1 / 2 := by ring
    rw [he, Int.floor_int_add]
    norm_num
  · rw [if_neg h]
    have he : -((k : ℚ) / 100) * 100 + 1 / 2 = ((-k : ℤ) : ℚ) + 1 / 2 := by push_cast; ring
    rw [he, Int.floor_int_add]
    norm_num

theorem round2_intCast_div (k : ℤ) : round2 ((k : ℚ) / 100) = (k : ℚ) / 100 := by
  unfold round2
  rw [roundCents_intCast_div]

theorem centAligned_iff {q : ℚ} : centAligned q ↔ ∃ k : ℤ, q = (k : ℚ) / 100 := by
  constructor
  · intro h
    unfold centAligned at h
    refine ⟨(q * 100).num, ?_⟩
    have h2 : ((q * 100).num : ℚ) = q * 100 := by
      conv_rhs => rw [← Rat.num_div_den (q * 100)]
      rw [h, Nat.cast_one, div_one]
    rw [eq_div_iff (by norm_num : (100 : ℚ) ≠ 0)]
    exact h2.symm
  · rintro ⟨k, rfl⟩
    unfold centAligned
    rw [div_mul_cancel₀ _ (by norm_num : (100 : ℚ) ≠ 0)]
    exact Rat.den_intCast k

theorem centAligned_round2 (q : ℚ) : round2 q = (roundCents q : ℚ) / 100 ∧ centAligned (round2 q) :=
  ⟨rfl, centAligned_iff.mpr ⟨roundCents q, rfl⟩⟩

theorem centAligned_add {a b : ℚ} (ha : centAligned a) (hb : centAligned b) :
    centAligned (a + b) := by
  rw [centAligned_iff] at ha hb ⊢
  obtain ⟨k, rfl⟩ := ha
  obtain ⟨m, rfl⟩ := hb
  exact ⟨k + m, by push_cast; ring⟩

theorem centAligned_zero : centAligned 0 := centAligned_iff.mpr ⟨0, by norm_num⟩

theorem centAligned_sum {l : List ℚ} (h : ∀ x ∈ l, centAligned x) : centAligned l.sum := by
  induction l with
  | nil => simpa using centAligned_zero
  | cons x tl ih =>
      rw [List.sum_cons]
      exact centAligned_add (h x (by simp)) (ih fun y hy => h y (by simp [hy]))

theorem round2_eq_self_of_centAligned {q : ℚ} (h : centAligned q) : round2 q = q := by
  obtain ⟨k, rfl⟩ := centAligned_iff.mp h
  exact round2_intCast_div k

theorem charsVal_pair (a b : ℕ) (ha : a < 10) (hb : b < 10) :
    charsVal [digitChar a, digitChar b] = 10 * a + b := by
  unfold charsVal
  simp [List.foldl, digitVal_digitChar ha, digitVal_digitChar hb]

end Travel

namespace Travel

theorem parseCurrencyL_eq {cs : List Char} {v : ℚ} (hne : cs ≠ [])
    (h : parseFloatL (trimL (cs.filter (fun c => !decide (c ∈ stripChars)))) = some v) :
    parseCurrencyL cs = v := by
  rw [parseCurrencyL, if_neg hne, h]

/-- C8.  Currency round-trip: parsing a formatted amount yields the amount
rounded to two decimal places, for every rational amount (no sign or
magnitude restriction is needed in the exact-arithmetic model). -/
theorem parseCurrency_formatCurrency (q : ℚ) : parseCurrency (formatCurrency q) = round2 q := by
  show parseCurrencyL (formatCurrencyL q) = round2 q
  simp only [formatCurrencyL, round2]
  generalize roundCents q = cents
  set na := cents.natAbs with hna
  set ip := na / 100 with hip
  set fr := na % 100 with hfr
  set le0 : List Char := if ip = 0 then ['0'] else natToCharsLE ip with hle0
  set c1 := digitChar (fr / 10) with hc1def
  set c2 := digitChar (fr % 10) with hc2def
  have hfrlt : fr < 100 := Nat.mod_lt _ (by norm_num)
  have hc1 : isDigitChar c1 = true := isDigitChar_digitChar (by omega)
  have hc2 : isDigitChar c2 = true := isDigitChar_digitChar (by omega)
  have hle0d : ∀ c ∈ le0, isDigitChar c = true := by
    intro c hc
    rw [hle0] at hc
    split at hc
    · simp only [List.mem_singleton] at hc
      subst hc
      decide
    · exact mem_natDigitsAux_digit _ _ c hc
  have hle0ne : le0 ≠ [] := by
    rw [hle0]
    split
    · simp
    · exact natToCharsLE_ne_nil (by assumption)
  have hval : valLE le0 = ip := by
    rw [hle0]
    split
    · rename_i h
      rw [h]
      decide
    · exact valLE_natToCharsLE ip
  have hrevd : ∀ c ∈ le0.reverse, isDigitChar c = true := by
    intro c hc
    exact hle0d c (List.mem_reverse.mp hc)
  have hrevne : le0.reverse ≠ [] := by
    simpa using hle0ne
  have hptrue : ∀ c : Char, isDigitChar c = true →
      (fun c => !decide (c ∈ stripChars)) c = true := by
    intro c hc
    simp only [Bool.not_eq_true', decide_eq_false_iff_not]
    exact digit_notMem_stripChars hc
  have pdash : (fun c => !decide (c ∈ stripChars)) '-' = true := by decide
  have pdollar : (fun c => !decide (c ∈ stripChars)) '$' = false := by decide
  have pdot : (fun c => !decide (c ∈ stripChars)) '.' = true := by decide
  have hfilterGroup :
      ((groupLE le0).reverse).filter (fun c => !decide (c ∈ stripChars)) = le0.reverse := by
    rw [List.filter_reverse, filter_groupLE _ (by decide) le0 (fun c hc => hptrue c (hle0d c hc))]
  have hfilterCore :
      (((groupLE le0).reverse ++ '.' :: [c1, c2]).filter (fun c => !decide (c ∈ stripChars)))
        = le0.reverse ++ '.' :: [c1, c2] := by
    rw [List.filter_append, hfilterGroup]
    simp only [List.filter_cons, pdot, hptrue c1 hc1, hptrue c2 hc2, if_true, List.filter_nil]
  have hnotwsCore : ∀ c ∈ le0.reverse ++ '.' :: [c1, c2], jsWhitespace c = false := by
    intro c hc
    simp only [List.mem_append, List.mem_cons, List.not_mem_nil, or_false] at hc
    rcases hc with hc | rfl | rfl | rfl
    · exact digit_not_ws (hrevd c hc)
    · decide
    · exact digit_not_ws hc1
    · exact digit_not_ws hc2
  have hfr2 : charsVal [c1, c2] = fr := by
    rw [hc1def, hc2def, charsVal_pair _ _ (by omega) (by omega)]
    omega
  have hsum : 100 * ip + fr = na := Nat.div_add_mod na 100
  have harith : ((ip : ℚ) + (fr : ℚ) / 100) = (na : ℚ) / 100 := by
    rw [eq_div_iff (by norm_num : ((100 : ℚ)) ≠ 0), ← hsum]
    push_cast
    ring
  by_cases hneg : cents < 0
  · rw [if_pos hneg]
    have hnaeq : (na : ℤ) = -cents := by omega
    have hv : parseCurrencyL ('-' :: '$' :: ((groupLE le0).reverse ++ '.' :: [c1, c2]))
        = -((ip : ℚ) + (fr : ℚ) / 100) := by
      apply parseCurrencyL_eq (by simp)
      rw [show ('-' :: '$' :: ((groupLE le0).reverse ++ '.' :: [c1, c2])).filter
            (fun c => !decide (c ∈ stripChars))
          = '-' :: (((groupLE le0).reverse ++ '.' :: [c1, c2]).filter
            (fun c => !decide (c ∈ stripChars))) by
        simp [List.filter_cons, pdash, pdollar]]
      rw [hfilterCore]
      rw [trimL_eq_self (by
        intro c hc
        simp only [List.mem_cons] at hc
        rcases hc with rfl | hc
        · decide
        · exact hnotwsCore c (by simpa using hc))]
      rw [parseFloatL_neg_digits_frac le0.reverse c1 c2 hrevd hrevne hc1 hc2,
        charsVal_reverse, hval, hfr2]
    show parseCurrencyL ('-' :: '$' :: ((groupLE le0).reverse ++ '.' :: [c1, c2])) = _
    rw [hv, harith]
    have : ((na : ℕ) : ℚ) = -(cents : ℚ) := by
      have h := congrArg (fun z : ℤ => (z : ℚ)) hnaeq
      push_cast at h
      exact h
    rw [this]
    ring
  · rw [if_neg hneg]
    have hnaeq : (na : ℤ) = cents := by omega
    have hv : parseCurrencyL ('$' :: ((groupLE le0).reverse ++ '.' :: [c1, c2]))
        = (ip : ℚ) + (fr : ℚ) / 100 := by
      apply parseCurrencyL_eq (by simp)
      rw [show ('$' :: ((groupLE le0).reverse ++ '.' :: [c1, c2])).filter
            (fun c => !decide (c ∈ stripChars))
          = ((groupLE le0).reverse ++ '.' :: [c1, c2]).filter
            (fun c => !decide (c ∈ stripChars)) by
        simp [List.filter_cons, pdollar]]
      rw [hfilterCore]
      rw [trimL_eq_self hnotwsCore]
      rw [parseFloatL_digits_frac le0.reverse c1 c2 hrevd hrevne hc1 hc2,
        charsVal_reverse, hval, hfr2]
    show parseCurrencyL ('$' :: ((groupLE le0).reverse ++ '.' :: [c1, c2])) = _
    rw [hv, harith]
    have : ((na : ℕ) : ℚ) = (cents : ℚ) := by
      have h := congrArg (fun z : ℤ => (z : ℚ)) hnaeq
      push_cast at h
      exact h
    rw [this]

end Travel

namespace Travel

/-! ## Concrete currency values -/

theorem round2_of_int (n : ℤ) : round2 ((n : ℚ)) = (n : ℚ) :=
  round2_eq_self_of_centAligned (centAligned_iff.mpr ⟨100 * n, by push_cast; ring⟩)

theorem fmt_0 : formatCurrency 0 = "$0.00" := by
  have h : roundCents (0 : ℚ) = 0 := by norm_num [roundCents, Int.floor_eq_iff]
  simp +decide [formatCurrency, formatCurrencyL, h, natToCharsLE, natDigitsAux, digitChar,
    groupLE]

theorem fmt_10 : formatCurrency 10 = "$10.00" := by
  have h : roundCents (10 : ℚ) = 1000 := by norm_num [roundCents, Int.floor_eq_iff]
  simp +decide [formatCurrency, formatCurrencyL, h, natToCharsLE, natDigitsAux, digitChar,
    groupLE]

theorem fmt_20 : formatCurrency 20 = "$20.00" := by
  have h : roundCents (20 : ℚ) = 2000 := by norm_num [roundCents, Int.floor_eq_iff]
  simp +decide [formatCurrency, formatCurrencyL, h, natToCharsLE, natDigitsAux, digitChar,
    groupLE]

theorem fmt_30 : formatCurrency 30 = "$30.00" := by
  have h : roundCents (30 : ℚ) = 3000 := by norm_num [roundCents, Int.floor_eq_iff]
  simp +decide [formatCurrency, formatCurrencyL, h, natToCharsLE, natDigitsAux, digitChar,
    groupLE]

theorem fmt_100 : formatCurrency 100 = "$100.00" := by
  have h : roundCents (100 : ℚ) = 10000 := by norm_num [roundCents, Int.floor_eq_iff]
  simp +decide [formatCurrency, formatCurrencyL, h, natToCharsLE, natDigitsAux, digitChar,
    groupLE]

theorem fmt_52 : formatCurrency 52 = "$52.00" := by
  have h : roundCents (52 : ℚ) = 5200 := by norm_num [roundCents, Int.floor_eq_iff]
  simp +decide [formatCurrency, formatCurrencyL, h, natToCharsLE, natDigitsAux, digitChar,
    groupLE]

theorem fmt_6 : formatCurrency 6 = "$6.00" := by
  have h : roundCents (6 : ℚ) = 600 := by norm_num [roundCents, Int.floor_eq_iff]
  simp +decide [formatCurrency, formatCurrencyL, h, natToCharsLE, natDigitsAux, digitChar,
    groupLE]

theorem fmt_5_20 : formatCurrency (26/5) = "$5.20" := by
  have h : roundCents ((26 : ℚ)/5) = 520 := by norm_num [roundCents, Int.floor_eq_iff]
  simp +decide [formatCurrency, formatCurrencyL, h, natToCharsLE, natDigitsAux, digitChar,
    groupLE]

theorem fmt_15_60 : formatCurrency (78/5) = "$15.60" := by
  have h : roundCents ((78 : ℚ)/5) = 1560 := by norm_num [roundCents, Int.floor_eq_iff]
  simp +decide [formatCurrency, formatCurrencyL, h, natToCharsLE, natDigitsAux, digitChar,
    groupLE]

theorem fmt_15_20 : formatCurrency (76/5) = "$15.20" := by
  have h : roundCents ((76 : ℚ)/5) = 1520 := by norm_num [roundCents, Int.floor_eq_iff]
  simp +decide [formatCurrency, formatCurrencyL, h, natToCharsLE, natDigitsAux, digitChar,
    groupLE]

theorem fmt_3_12 : formatCurrency (78/25) = "$3.12" := by
  have h : roundCents ((78 : ℚ)/25) = 312 := by norm_num [roundCents, Int.floor_eq_iff]
  simp +decide [formatCurrency, formatCurrencyL, h, natToCharsLE, natDigitsAux, digitChar,
    groupLE]

theorem parse_0 : parseCurrency "$0.00" = 0 := by
  rw [← fmt_0, parseCurrency_formatCurrency]
  simpa using round2_of_int 0

theorem parse_10 : parseCurrency "$10.00" = 10 := by
  rw [← fmt_10, parseCurrency_formatCurrency]
  simpa using round2_of_int 10

theorem parse_20 : parseCurrency "$20.00" = 20 := by
  rw [← fmt_20, parseCurrency_formatCurrency]
  simpa using round2_of_int 20

theorem parse_30 : parseCurrency "$30.00" = 30 := by
  rw [← fmt_30, parseCurrency_formatCurrency]
  simpa using round2_of_int 30

theorem parse_100 : parseCurrency "$100.00" = 100 := by
  rw [← fmt_100, parseCurrency_formatCurrency]
  simpa using round2_of_int 100

theorem parse_52 : parseCurrency "$52.00" = 52 := by
  rw [← fmt_52, parseCurrency_formatCurrency]
  simpa using round2_of_int 52

/-! ## C3: the within-budget no-op path -/

theorem optimizeBudget_under (itinerary : Itinerary) (totalBudget : ℚ)
    (h : parseCurrency itinerary.totalCost ≤ totalBudget) :
    optimizeBudget itinerary totalBudget = itinerary := by
  unfold optimizeBudget optimizeBudgetWith optimizeBudgetBody
  rw [if_pos h]

/-- C3.  When the parsed total cost is at most the target budget,
`optimizeBudget` returns its input itinerary unchanged: identical
`totalCost`, identical days and costs, and no `alternativeActivities`
added anywhere (the over-budget path is the only one that adds them). -/
theorem optimizeBudget_noop (itinerary : Itinerary) (totalBudget : ℚ)
    (h : parseCurrency itinerary.totalCost ≤ totalBudget) :
    optimizeBudget itinerary totalBudget = itinerary :=
  optimizeBudget_under itinerary totalBudget h

/-- Witness for C3 at the concrete within-budget itinerary `itinW`. -/
theorem optimizeBudget_noop_witness : optimizeBudget itinW 0 = itinW :=
  optimizeBudget_noop itinW 0 (by rw [show itinW.totalCost = "$0.00" from rfl, parse_0])

end Travel

namespace Travel

/-! ## C2: reduction caps -/

theorem reductionPercentage_le_cap (s t cap : ℚ) : reductionPercentage s t cap ≤ cap := by
  unfold reductionPercentage
  split
  · exact le_refl cap
  · exact min_le_right _ _

theorem optimizeAccommodation_cost (days : List Day) (s t : ℚ) (i : ℕ) :
    ((optimizeAccommodation days s t).get? i).map (fun d => d.accommodation.cost)
      = (days.get? i).map (fun d =>
          formatCurrency (parseCurrency d.accommodation.cost *
            (1 - reductionPercentage s t (1/2)))) := by
  unfold optimizeAccommodation
  simp [List.get?_map, Option.map_map]
  rfl

theorem optimizeTransportation_cost (days : List Day) (s t : ℚ) (i : ℕ) :
    ((optimizeTransportation days s t).get? i).map (fun d => d.transportation.cost)
      = (days.get? i).map (fun d =>
          formatCurrency (parseCurrency d.transportation.cost *
            (1 - reductionPercentage s t (9/20)))) := by
  unfold optimizeTransportation
  simp [List.get?_map, Option.map_map]
  rfl

theorem applyActivityReduction_get? (reduction : ℚ) (acts : List Activity) (p : ℕ × Bool)
    (j : ℕ) :
    (applyActivityReduction reduction acts p).get? j = acts.get? j ∨
    ∃ a0 aj, acts.get? p.1 = some a0 ∧ acts.get? j = some aj ∧
      (applyActivityReduction reduction acts p).get? j
        = some { aj with cost := formatCurrency (parseCurrency a0.cost *
            (1 - reduction * (1 + (if p.2 then (2 : ℚ)/10 else 0)))) } := by
  unfold applyActivityReduction
  cases hget : acts.get? p.1 with
  | none => left; rfl
  | some a0 =>
      cases hfind : findIndexByName a0.name acts with
      | none =>
          left
          simp only [hfind]
      | some oi =>
          simp only [hfind]
          unfold setActivityCost
          cases hget2 : acts.get? oi with
          | none =>
              left
              simp only [hget2]
          | some ai =>
              simp only [hget2]
              by_cases hj : j = oi
              · subst hj
                right
                refine ⟨a0, ai, rfl, hget2, ?_⟩
                rw [List.get?_set_eq, hget2]
                rfl
              · left
                exact List.get?_set_ne _ _ (fun h => hj h.symm)

/-- C2 (amended).  The reduction fraction computed for each category never
exceeds its cap (0.5 accommodation, 0.4 activities, 0.45 transportation), and
accommodation/transportation costs are rewritten with exactly the factor
`(1 - reduction)`; but in the activities pass the single boosted iteration
(sorted index 0, the most expensive activity) applies
`reduction × 1.2`, which reaches `12/25 = 0.48` and therefore exceeds the
`0.4` activities cap — the claimed per-cost bound holds only for the
non-boosted activities. -/
theorem reduction_caps_amended :
    (∀ s t : ℚ, reductionPercentage s t (1/2) ≤ 1/2 ∧ reductionPercentage s t (2/5) ≤ 2/5 ∧
      reductionPercentage s t (9/20) ≤ 9/20) ∧
    (∀ (days : List Day) (s t : ℚ) (i : ℕ),
      ((optimizeAccommodation days s t).get? i).map (fun d => d.accommodation.cost)
        = (days.get? i).map (fun d =>
            formatCurrency (parseCurrency d.accommodation.cost *
              (1 - reductionPercentage s t (1/2))))) ∧
    (∀ (days : List Day) (s t : ℚ) (i : ℕ),
      ((optimizeTransportation days s t).get? i).map (fun d => d.transportation.cost)
        = (days.get? i).map (fun d =>
            formatCurrency (parseCurrency d.transportation.cost *
              (1 - reductionPercentage s t (9/20))))) ∧
    (∀ (reduction : ℚ) (acts : List Activity) (p : ℕ × Bool) (j : ℕ),
      (applyActivityReduction reduction acts p).get? j = acts.get? j ∨
      ∃ a0 aj, acts.get? p.1 = some a0 ∧ acts.get? j = some aj ∧
        (applyActivityReduction reduction acts p).get? j
          = some { aj with cost := formatCurrency (parseCurrency a0.cost *
              (1 - reduction * (1 + (if p.2 then (2 : ℚ)/10 else 0)))) }) ∧
    (∀ r : ℚ, 0 ≤ r → r ≤ 2/5 → r * (1 + (2 : ℚ)/10) ≤ 12/25) ∧ ((2 : ℚ)/5 < 12/25) := by
  refine ⟨?_, optimizeAccommodation_cost, optimizeTransportation_cost,
    applyActivityReduction_get?, ?_, by norm_num⟩
  · intro s t
    exact ⟨reductionPercentage_le_cap s t _, reductionPercentage_le_cap s t _,
      reductionPercentage_le_cap s t _⟩
  · intro r h0 h25
    nlinarith

/-- Witness for C2 at concrete inputs: the caps at `s = 5, t = 10`, and the
boosted fraction at `r = 2/5`. -/
theorem reduction_caps_amended_witness :
    reductionPercentage 5 10 (1/2) ≤ 1/2 ∧ (2 : ℚ)/5 * (1 + (2 : ℚ)/10) ≤ 12/25 :=
  ⟨(reduction_caps_amended.1 5 10).1,
    reduction_caps_amended.2.2.2.2.1 (2/5) (by norm_num) (by norm_num)⟩

end Travel

namespace Travel

/-- Counterexample to C2 as stated: on a day whose only activity costs
`$100.00`, with `savingsNeeded = totalActivitiesCost = 100`, the computed
reduction is the cap `0.4`, but the boosted most-expensive activity is
reduced by `0.4 × 1.2 = 0.48`: its new cost `$52.00` is strictly below
`$100.00 × (1 - 0.4) = $60.00`. -/
theorem reduction_bound_counterexample :
    ((optimizeActivities [dayA] 100 100).map fun d => d.activities.map Activity.cost)
        = [["$52.00"]] ∧
    parseCurrency "$52.00" < parseCurrency "$100.00" * (1 - 2/5) := by
  constructor
  · have hr : reductionPercentage 100 100 (2/5) = 2/5 := by
      norm_num [reductionPercentage, min_def]
    have harg : parseCurrency "$100.00" * (1 - 2/5 * (1 + (2 : ℚ)/10)) = 52 := by
      rw [parse_100]
      norm_num
    simp +decide [optimizeActivities, optimizeActivitiesDay, sortActivitiesDesc, enumActs,
      boostFlags, applyActivityReduction, findIndexByName, setActivityCost, insertDescCost,
      dayA, actMuseumTour, hr, harg, fmt_52]
  · rw [parse_52, parse_100]
    norm_num

end Travel

namespace Travel

/-! ## Which fields each pass touches -/

theorem addBudgetAlternatives_triple (days : List Day) (i : ℕ) :
    ((addBudgetAlternatives days).get? i).map dayCostTriple
      = (days.get? i).map dayCostTriple := by
  unfold addBudgetAlternatives
  simp [List.get?_map, Option.map_map]
  rfl

theorem optimizeAccommodation_triple (days : List Day) (s t : ℚ) (i : ℕ) :
    ((optimizeAccommodation days s t).get? i).map dayCostTriple
      = (days.get? i).map (fun d =>
          (formatCurrency (parseCurrency d.accommodation.cost *
            (1 - reductionPercentage s t (1/2))),
           d.transportation.cost, d.activities.map Activity.cost)) := by
  unfold optimizeAccommodation
  simp [List.get?_map, Option.map_map]
  rfl

theorem optimizeTransportation_triple (days : List Day) (s t : ℚ) (i : ℕ) :
    ((optimizeTransportation days s t).get? i).map dayCostTriple
      = (days.get? i).map (fun d =>
          (d.accommodation.cost,
           formatCurrency (parseCurrency d.transportation.cost *
            (1 - reductionPercentage s t (9/20))),
           d.activities.map Activity.cost)) := by
  unfold optimizeTransportation
  simp [List.get?_map, Option.map_map]
  rfl

theorem optimizeActivities_pair (days : List Day) (s t : ℚ) (i : ℕ) :
    ((optimizeActivities days s t).get? i).map
        (fun d => (d.accommodation.cost, d.transportation.cost))
      = (days.get? i).map (fun d => (d.accommodation.cost, d.transportation.cost)) := by
  unfold optimizeActivities optimizeActivitiesDay
  simp [List.get?_map, Option.map_map]
  rfl

theorem addBudgetAlternatives_pair (days : List Day) (i : ℕ) :
    ((addBudgetAlternatives days).get? i).map
        (fun d => (d.accommodation.cost, d.transportation.cost))
      = (days.get? i).map (fun d => (d.accommodation.cost, d.transportation.cost)) := by
  unfold addBudgetAlternatives
  simp [List.get?_map, Option.map_map]
  rfl

/-- On the over-budget path, `optimizeBudget` reduces one category of the
(identically deep-copied) days, recomputes the total, and adds the budget
alternatives. -/
theorem optimizeBudget_over (itinerary : Itinerary) (totalBudget : ℚ)
    (hover : totalBudget < parseCurrency itinerary.totalCost) :
    optimizeBudget itinerary totalBudget =
      (let savingsNeeded := parseCurrency itinerary.totalCost - totalBudget
       let bd := analyzeBudgetAllocation itinerary
       let newDays :=
         if bd.accommodation > bd.activities ∧ bd.accommodation > bd.transportation then
           optimizeAccommodation itinerary.days savingsNeeded bd.accommodation
         else if bd.activities > bd.transportation then
           optimizeActivities itinerary.days savingsNeeded bd.activities
         else optimizeTransportation itinerary.days savingsNeeded bd.transportation
       { itinerary with days := addBudgetAlternatives newDays
                        totalCost := formatCurrency (calculateTotalCost newDays) }) := by
  unfold optimizeBudget optimizeBudgetWith optimizeBudgetBody jsonDeepCopy
  rw [if_neg (not_le.mpr hover)]

end Travel

namespace Travel

theorem optimizeActivities_acc (days : List Day) (s t : ℚ) (i : ℕ) :
    ((optimizeActivities days s t).get? i).map (fun d => d.accommodation.cost)
      = (days.get? i).map (fun d => d.accommodation.cost) := by
  unfold optimizeActivities optimizeActivitiesDay
  simp [List.get?_map, Option.map_map]
  rfl

theorem optimizeTransportation_acc (days : List Day) (s t : ℚ) (i : ℕ) :
    ((optimizeTransportation days s t).get? i).map (fun d => d.accommodation.cost)
      = (days.get? i).map (fun d => d.accommodation.cost) := by
  unfold optimizeTransportation
  simp [List.get?_map, Option.map_map]
  rfl

theorem addBudgetAlternatives_acc (days : List Day) (i : ℕ) :
    ((addBudgetAlternatives days).get? i).map (fun d => d.accommodation.cost)
      = (days.get? i).map (fun d => d.accommodation.cost) := by
  unfold addBudgetAlternatives
  simp [List.get?_map, Option.map_map]
  rfl

/-- C4 (amended).  On the over-budget path exactly one category is reduced,
chosen by the source's strict comparison chain: accommodation only when its
total is strictly greater than both other totals; otherwise activities when
strictly greater than transportation; otherwise transportation.  A tie never
selects accommodation: when the accommodation total equals the activities
total, every accommodation cost is returned unchanged — the claimed
accommodation-first tie-break does not hold. -/
theorem dominant_category_selection (itinerary : Itinerary) (totalBudget : ℚ)
    (hover : totalBudget < parseCurrency itinerary.totalCost) :
    ((analyzeBudgetAllocation itinerary).accommodation >
        (analyzeBudgetAllocation itinerary).activities ∧
      (analyzeBudgetAllocation itinerary).accommodation >
        (analyzeBudgetAllocation itinerary).transportation →
      ∀ i : ℕ,
        ((optimizeBudget itinerary totalBudget).days.get? i).map dayCostTriple
          = (itinerary.days.get? i).map (fun d =>
              (formatCurrency (parseCurrency d.accommodation.cost *
                (1 - reductionPercentage (parseCurrency itinerary.totalCost - totalBudget)
                  (analyzeBudgetAllocation itinerary).accommodation (1/2))),
               d.transportation.cost, d.activities.map Activity.cost))) ∧
    (¬((analyzeBudgetAllocation itinerary).accommodation >
        (analyzeBudgetAllocation itinerary).activities ∧
      (analyzeBudgetAllocation itinerary).accommodation >
        (analyzeBudgetAllocation itinerary).transportation) →
      (analyzeBudgetAllocation itinerary).activities >
        (analyzeBudgetAllocation itinerary).transportation →
      ∀ i : ℕ,
        ((optimizeBudget itinerary totalBudget).days.get? i).map
            (fun d => (d.accommodation.cost, d.transportation.cost))
          = (itinerary.days.get? i).map
              (fun d => (d.accommodation.cost, d.transportation.cost))) ∧
    (¬((analyzeBudgetAllocation itinerary).accommodation >
        (analyzeBudgetAllocation itinerary).activities ∧
      (analyzeBudgetAllocation itinerary).accommodation >
        (analyzeBudgetAllocation itinerary).transportation) →
      ¬((analyzeBudgetAllocation itinerary).activities >
        (analyzeBudgetAllocation itinerary).transportation) →
      ∀ i : ℕ,
        ((optimizeBudget itinerary totalBudget).days.get? i).map dayCostTriple
          = (itinerary.days.get? i).map (fun d =>
              (d.accommodation.cost,
               formatCurrency (parseCurrency d.transportation.cost *
                (1 - reductionPercentage (parseCurrency itinerary.totalCost - totalBudget)
                  (analyzeBudgetAllocation itinerary).transportation (9/20))),
               d.activities.map Activity.cost))) ∧
    ((analyzeBudgetAllocation itinerary).accommodation =
        (analyzeBudgetAllocation itinerary).activities →
      ∀ i : ℕ,
        ((optimizeBudget itinerary totalBudget).days.get? i).map
            (fun d => d.accommodation.cost)
          = (itinerary.days.get? i).map (fun d => d.accommodation.cost)) := by
  rw [optimizeBudget_over itinerary totalBudget hover]
  refine ⟨?_, ?_, ?_, ?_⟩
  · intro hacc i
    simp only
    rw [if_pos hacc]
    rw [addBudgetAlternatives_triple, optimizeAccommodation_triple]
  · intro hnacc hact i
    simp only
    rw [if_neg hnacc, if_pos hact]
    rw [addBudgetAlternatives_pair, optimizeActivities_pair]
  · intro hnacc hnact i
    simp only
    rw [if_neg hnacc, if_neg hnact]
    rw [addBudgetAlternatives_triple, optimizeTransportation_triple]
  · intro htie i
    have hnacc : ¬((analyzeBudgetAllocation itinerary).accommodation >
        (analyzeBudgetAllocation itinerary).activities ∧
      (analyzeBudgetAllocation itinerary).accommodation >
        (analyzeBudgetAllocation itinerary).transportation) := by
      rintro ⟨h1, _⟩
      rw [htie] at h1
      exact lt_irrefl _ h1
    simp only
    rw [if_neg hnacc]
    by_cases hact : (analyzeBudgetAllocation itinerary).activities >
        (analyzeBudgetAllocation itinerary).transportation
    · rw [if_pos hact, addBudgetAlternatives_acc, optimizeActivities_acc]
    · rw [if_neg hact, addBudgetAlternatives_acc, optimizeTransportation_acc]

end Travel

namespace Travel

theorem addBudgetAlternatives_actCosts (days : List Day) (i : ℕ) :
    ((addBudgetAlternatives days).get? i).map (fun d => d.activities.map Activity.cost)
      = (days.get? i).map (fun d => d.activities.map Activity.cost) := by
  unfold addBudgetAlternatives
  simp [List.get?_map, Option.map_map]
  rfl

/-- Counterexample to C4 as stated: in `itinTie` the accommodation total
equals the activities total (both `10`) and both exceed the transportation
total (`0`), yet the over-budget pass leaves the accommodation cost
unchanged at `$10.00` and reduces the activity instead (to `$5.20`):
activities, not accommodation, is the selected category on this tie. -/
theorem dominant_tie_counterexample :
    parseCurrency itinTie.totalCost = 20 ∧
    (analyzeBudgetAllocation itinTie).accommodation = 10 ∧
    (analyzeBudgetAllocation itinTie).activities = 10 ∧
    (analyzeBudgetAllocation itinTie).transportation = 0 ∧
    ((optimizeBudget itinTie 15).days.get? 0).map (fun d => d.accommodation.cost)
      = some "$10.00" ∧
    ((optimizeBudget itinTie 15).days.get? 0).map (fun d => d.activities.map Activity.cost)
      = some ["$5.20"] := by
  have h20 : parseCurrency itinTie.totalCost = 20 := parse_20
  have hbd_acc : (analyzeBudgetAllocation itinTie).accommodation = 10 := by
    simp [analyzeBudgetAllocation, itinTie, dayTie, accTen, parse_10]
  have hbd_act : (analyzeBudgetAllocation itinTie).activities = 10 := by
    simp [analyzeBudgetAllocation, itinTie, dayTie, actWalkingTour, parse_10]
  have hbd_trans : (analyzeBudgetAllocation itinTie).transportation = 0 := by
    simp [analyzeBudgetAllocation, itinTie, dayTie, transZero, parse_0]
  have hover : (15 : ℚ) < parseCurrency itinTie.totalCost := by
    rw [h20]
    norm_num
  have hnacc : ¬((analyzeBudgetAllocation itinTie).accommodation >
      (analyzeBudgetAllocation itinTie).activities ∧
    (analyzeBudgetAllocation itinTie).accommodation >
      (analyzeBudgetAllocation itinTie).transportation) := by
    intro h
    rw [hbd_acc, hbd_act] at h
    exact lt_irrefl _ h.1
  have hact : (analyzeBudgetAllocation itinTie).activities >
      (analyzeBudgetAllocation itinTie).transportation := by
    rw [hbd_act, hbd_trans]
    norm_num
  have hout := optimizeBudget_over itinTie 15 hover
  refine ⟨h20, hbd_acc, hbd_act, hbd_trans, ?_, ?_⟩
  · rw [hout]
    simp only
    rw [if_neg hnacc, if_pos hact, addBudgetAlternatives_acc, optimizeActivities_acc]
    simp [itinTie, dayTie, accTen]
  · rw [hout]
    simp only
    rw [if_neg hnacc, if_pos hact, addBudgetAlternatives_actCosts]
    have hr : reductionPercentage (parseCurrency itinTie.totalCost - 15)
        (analyzeBudgetAllocation itinTie).activities (2/5) = 2/5 := by
      rw [h20, hbd_act]
      norm_num [reductionPercentage, min_def]
    have harg : parseCurrency "$10.00" * (1 - 2/5 * (1 + (2 : ℚ)/10)) = 26/5 := by
      rw [parse_10]
      norm_num
    unfold optimizeActivities
    rw [hr]
    simp +decide [optimizeActivitiesDay, sortActivitiesDesc, enumActs,
      boostFlags, applyActivityReduction, findIndexByName, setActivityCost, insertDescCost,
      itinTie, dayTie, actWalkingTour, harg, fmt_5_20]

end Travel

namespace Travel

/-- Witness for C4 at the concrete tie itinerary: the activities branch
leaves accommodation and transportation costs unchanged. -/
theorem dominant_category_selection_witness :
    ((optimizeBudget itinTie 15).days.get? 0).map
        (fun d => (d.accommodation.cost, d.transportation.cost))
      = (itinTie.days.get? 0).map
          (fun d => (d.accommodation.cost, d.transportation.cost)) := by
  have hbd_acc : (analyzeBudgetAllocation itinTie).accommodation = 10 := by
    simp [analyzeBudgetAllocation, itinTie, dayTie, accTen, parse_10]
  have hbd_act : (analyzeBudgetAllocation itinTie).activities = 10 := by
    simp [analyzeBudgetAllocation, itinTie, dayTie, actWalkingTour, parse_10]
  have hbd_trans : (analyzeBudgetAllocation itinTie).transportation = 0 := by
    simp [analyzeBudgetAllocation, itinTie, dayTie, transZero, parse_0]
  exact (dominant_category_selection itinTie 15
      (by rw [show parseCurrency itinTie.totalCost = 20 from parse_20]; norm_num)).2.1
    (by intro h; rw [hbd_acc, hbd_act] at h; exact lt_irrefl _ h.1)
    (by rw [hbd_act, hbd_trans]; norm_num) 0

/-! ## C5: fail-safe catch -/

/-- C5.  The optimizer's `catch` clause: whenever the body computation fails
(the deep copy `JSON.parse(JSON.stringify(...))` is the body's one fallible
step, abstracted by `copy`), the function returns the original input
itinerary completely unmodified.  `optimizeBudgetWith` is a total function
into `Itinerary`, so no exception ever reaches the caller. -/
theorem optimizeBudget_fail_safe (copy : Itinerary → Except Unit Itinerary)
    (itinerary : Itinerary) (totalBudget : ℚ) (e : Unit)
    (h : optimizeBudgetBody copy itinerary totalBudget = Except.error e) :
    optimizeBudgetWith copy itinerary totalBudget = itinerary := by
  unfold optimizeBudgetWith
  rw [h]

/-- Witness for C5: a failing deep copy on an over-budget itinerary makes the
body fail, and the result is the unmodified input. -/
theorem optimizeBudget_fail_safe_witness :
    optimizeBudgetWith copyFail itinTie 15 = itinTie := by
  apply optimizeBudget_fail_safe copyFail itinTie 15 ()
  unfold optimizeBudgetBody copyFail
  rw [if_neg (by rw [show parseCurrency itinTie.totalCost = 20 from parse_20]; norm_num)]

/-! ## C1: cost conservation -/

theorem activity_cost_update (a : Activity) (x : String) :
    ({ a with cost := x } : Activity).cost = x := rfl

/-- Costs of a day list that are all whole cents give a whole-cent total. -/
theorem centAligned_calculateTotalCost (days : List Day)
    (h : ∀ d ∈ days, centAligned (parseCurrency d.accommodation.cost) ∧
      centAligned (parseCurrency d.transportation.cost) ∧
      ∀ a ∈ d.activities, centAligned (parseCurrency a.cost)) :
    centAligned (calculateTotalCost days) := by
  unfold calculateTotalCost
  apply centAligned_sum
  intro x hx
  rcases List.mem_map.mp hx with ⟨d, hd, rfl⟩
  obtain ⟨h1, h2, h3⟩ := h d hd
  refine centAligned_add (centAligned_add h1 h2) (centAligned_sum ?_)
  intro y hy
  rcases List.mem_map.mp hy with ⟨a, ha, rfl⟩
  exact h3 a ha

theorem cent_days_optimizeAccommodation (days : List Day) (s t : ℚ)
    (h : ∀ d ∈ days, centAligned (parseCurrency d.accommodation.cost) ∧
      centAligned (parseCurrency d.transportation.cost) ∧
      ∀ a ∈ d.activities, centAligned (parseCurrency a.cost)) :
    ∀ d ∈ optimizeAccommodation days s t,
      centAligned (parseCurrency d.accommodation.cost) ∧
      centAligned (parseCurrency d.transportation.cost) ∧
      ∀ a ∈ d.activities, centAligned (parseCurrency a.cost) := by
  intro d hd
  unfold optimizeAccommodation at hd
  rcases List.mem_map.mp hd with ⟨d0, hd0, rfl⟩
  obtain ⟨h1, h2, h3⟩ := h d0 hd0
  refine ⟨?_, h2, h3⟩
  show centAligned (parseCurrency (formatCurrency _))
  rw [parseCurrency_formatCurrency]
  exact (centAligned_round2 _).2

theorem cent_days_optimizeTransportation (days : List Day) (s t : ℚ)
    (h : ∀ d ∈ days, centAligned (parseCurrency d.accommodation.cost) ∧
      centAligned (parseCurrency d.transportation.cost) ∧
      ∀ a ∈ d.activities, centAligned (parseCurrency a.cost)) :
    ∀ d ∈ optimizeTransportation days s t,
      centAligned (parseCurrency d.accommodation.cost) ∧
      centAligned (parseCurrency d.transportation.cost) ∧
      ∀ a ∈ d.activities, centAligned (parseCurrency a.cost) := by
  intro d hd
  unfold optimizeTransportation at hd
  rcases List.mem_map.mp hd with ⟨d0, hd0, rfl⟩
  obtain ⟨h1, h2, h3⟩ := h d0 hd0
  refine ⟨h1, ?_, h3⟩
  show centAligned (parseCurrency (formatCurrency _))
  rw [parseCurrency_formatCurrency]
  exact (centAligned_round2 _).2

theorem applyActivityReduction_cent (reduction : ℚ) (acts : List Activity) (p : ℕ × Bool)
    (h : ∀ a ∈ acts, centAligned (parseCurrency a.cost)) :
    ∀ a ∈ applyActivityReduction reduction acts p, centAligned (parseCurrency a.cost) := by
  unfold applyActivityReduction
  cases hget : acts.get? p.1 with
  | none => exact h
  | some a0 =>
      cases hfind : findIndexByName a0.name acts with
      | none =>
          simp only [hfind]
          exact h
      | some oi =>
          simp only [hfind]
          unfold setActivityCost
          cases hget2 : acts.get? oi with
          | none => exact h
          | some ai =>
              simp only [hget2]
              intro a ha
              rcases List.mem_or_eq_of_mem_set ha with hmem | rfl
              · exact h a hmem
              · rw [activity_cost_update, parseCurrency_formatCurrency]
                exact (centAligned_round2 _).2

theorem foldl_applyActivityReduction_cent (reduction : ℚ) :
    ∀ (L : List (ℕ × Bool)) (acts : List Activity),
      (∀ a ∈ acts, centAligned (parseCurrency a.cost)) →
      ∀ a ∈ L.foldl (applyActivityReduction reduction) acts,
        centAligned (parseCurrency a.cost)
  | [], acts, h => h
  | p :: L, acts, h => by
      rw [List.foldl_cons]
      exact foldl_applyActivityReduction_cent reduction L _
        (applyActivityReduction_cent reduction acts p h)

theorem cent_days_optimizeActivities (days : List Day) (s t : ℚ)
    (h : ∀ d ∈ days, centAligned (parseCurrency d.accommodation.cost) ∧
      centAligned (parseCurrency d.transportation.cost) ∧
      ∀ a ∈ d.activities, centAligned (parseCurrency a.cost)) :
    ∀ d ∈ optimizeActivities days s t,
      centAligned (parseCurrency d.accommodation.cost) ∧
      centAligned (parseCurrency d.transportation.cost) ∧
      ∀ a ∈ d.activities, centAligned (parseCurrency a.cost) := by
  intro d hd
  unfold optimizeActivities optimizeActivitiesDay at hd
  rcases List.mem_map.mp hd with ⟨d0, hd0, rfl⟩
  obtain ⟨h1, h2, h3⟩ := h d0 hd0
  exact ⟨h1, h2, foldl_applyActivityReduction_cent _ _ _ h3⟩

theorem calculateTotalCost_addBudgetAlternatives (days : List Day) :
    calculateTotalCost (addBudgetAlternatives days) = calculateTotalCost days := by
  unfold calculateTotalCost addBudgetAlternatives
  rw [List.map_map]
  rfl

end Travel

namespace Travel

/-- C1 (amended).  Cost conservation: the sum of all day costs of the
returned itinerary equals the parse of its `totalCost`, provided (a) every
input cost string parses to a whole number of cents — the over-budget pass
reformats only the reduced category, so sub-cent costs in the other
categories would make the recomputed total round — and (b) on the
within-budget pass-through path the input itinerary already satisfied the
invariant, since that path returns the input verbatim. -/
theorem cost_conservation_amended (itinerary : Itinerary) (totalBudget : ℚ)
    (hcent : centCosts itinerary)
    (hinv : parseCurrency itinerary.totalCost ≤ totalBudget →
      calculateTotalCost itinerary.days = parseCurrency itinerary.totalCost) :
    calculateTotalCost (optimizeBudget itinerary totalBudget).days
      = parseCurrency (optimizeBudget itinerary totalBudget).totalCost := by
  by_cases h : parseCurrency itinerary.totalCost ≤ totalBudget
  · rw [optimizeBudget_under _ _ h]
    exact hinv h
  · have hover : totalBudget < parseCurrency itinerary.totalCost := not_le.mp h
    rw [optimizeBudget_over _ _ hover]
    simp only
    rw [calculateTotalCost_addBudgetAlternatives, parseCurrency_formatCurrency]
    refine (round2_eq_self_of_centAligned ?_).symm
    split
    · exact centAligned_calculateTotalCost _ (cent_days_optimizeAccommodation _ _ _ hcent)
    · split
      · exact centAligned_calculateTotalCost _ (cent_days_optimizeActivities _ _ _ hcent)
      · exact centAligned_calculateTotalCost _ (cent_days_optimizeTransportation _ _ _ hcent)

/-- Counterexample to C1 as stated: `itinBad` stores total `$10.00` but has
no days, so its day-cost sum is `0`; it is within budget `20`, the
pass-through path returns it unchanged, and the returned itinerary violates
the claimed invariant. -/
theorem cost_conservation_counterexample :
    optimizeBudget itinBad 20 = itinBad ∧
    calculateTotalCost (optimizeBudget itinBad 20).days = 0 ∧
    parseCurrency (optimizeBudget itinBad 20).totalCost = 10 ∧
    calculateTotalCost (optimizeBudget itinBad 20).days
      ≠ parseCurrency (optimizeBudget itinBad 20).totalCost := by
  have hpass : optimizeBudget itinBad 20 = itinBad :=
    optimizeBudget_under _ _
      (by rw [show parseCurrency itinBad.totalCost = 10 from parse_10]; norm_num)
  have hsum : calculateTotalCost (optimizeBudget itinBad 20).days = 0 := by
    rw [hpass]
    simp [calculateTotalCost, itinBad]
  have hp : parseCurrency (optimizeBudget itinBad 20).totalCost = 10 := by
    rw [hpass]
    exact parse_10
  refine ⟨hpass, hsum, hp, ?_⟩
  rw [hsum, hp]
  norm_num

/-- Witness for C1 at the concrete within-budget itinerary `itinW`. -/
theorem cost_conservation_amended_witness :
    calculateTotalCost (optimizeBudget itinW 0).days
      = parseCurrency (optimizeBudget itinW 0).totalCost :=
  cost_conservation_amended itinW 0
    (by intro d hd; simp [itinW] at hd)
    (by intro _; simp [calculateTotalCost, itinW, parse_0])

end Travel

namespace Travel

/-! ## C6: generator error handling -/

/-- C6 (amended).  The flight, hotel and activity searches fail soft — any
internal failure is caught and an empty list is returned — but the map
generator does not: its `catch` throws a fresh error, so a map failure
propagates to the caller instead of degrading to an empty result. -/
theorem generators_fail_soft_amended :
    searchFlightsWith (Except.error ()) = [] ∧
    searchHotelsWith (Except.error ()) = [] ∧
    findActivitiesWith (Except.error ()) = [] ∧
    getMapDataWith (Except.error ()) = Except.error () ∧
    (∀ m : MapData, getMapDataWith (Except.error ()) ≠ Except.ok m) := by
  refine ⟨rfl, rfl, rfl, rfl, ?_⟩
  intro m h
  exact Except.noConfusion h

/-- Counterexample to C6 as stated: the map/location generator propagates
its internal failure (it rethrows) rather than returning an empty value. -/
theorem generators_fail_soft_counterexample :
    getMapDataWith (Except.error ()) = Except.error () := rfl

/-! ## C7: determinism -/

/-- C7 (amended).  Every embedded generator and the optimizer is
deterministic as a function of its explicit inputs — but for the weather
generator those inputs include the `Math.random` stream (and the `Math.sin`
approximation): two runs agree only when the stream is also held fixed,
which the real runtime does not do. -/
theorem determinism_amended :
    (∀ (it₁ it₂ : Itinerary) (b₁ b₂ : ℚ), it₁ = it₂ → b₁ = b₂ →
      optimizeBudget it₁ b₁ = optimizeBudget it₂ b₂) ∧
    (∀ (s₁ s₂ : ℚ → ℚ) (r₁ r₂ : ℕ → ℚ) (loc₁ loc₂ : String) (d₁ d₂ : JSDate),
      s₁ = s₂ → r₁ = r₂ → loc₁ = loc₂ → d₁ = d₂ →
      generateMockWeatherData s₁ r₁ loc₁ d₁ = generateMockWeatherData s₂ r₂ loc₂ d₂) ∧
    (∀ b₁ b₂ : Except Unit (List Flight), b₁ = b₂ →
      searchFlightsWith b₁ = searchFlightsWith b₂) ∧
    (∀ b₁ b₂ : Except Unit (List Hotel), b₁ = b₂ →
      searchHotelsWith b₁ = searchHotelsWith b₂) ∧
    (∀ b₁ b₂ : Except Unit (List ActivityItem), b₁ = b₂ →
      findActivitiesWith b₁ = findActivitiesWith b₂) := by
  refine ⟨?_, ?_, ?_, ?_, ?_⟩ <;> intros <;> subst_vars <;> rfl

/-- Witness for C7: two runs of the optimizer on equal inputs, and two runs
of the weather generator with the same stream, agree. -/
theorem determinism_amended_witness :
    optimizeBudget itinW 0 = optimizeBudget itinW 0 ∧
    generateMockWeatherData sinZero rndZero "a" dateJune
      = generateMockWeatherData sinZero rndZero "a" dateJune :=
  ⟨determinism_amended.1 itinW itinW 0 0 rfl rfl,
   determinism_amended.2.1 sinZero sinZero rndZero rndZero "a" "a" dateJune dateJune
     rfl rfl rfl rfl⟩

end Travel

namespace Travel

theorem locationHash_a : locationHashOf "a" = 97 := by decide

theorem weather_min_rndZero :
    (generateMockWeatherData sinZero rndZero "a" dateJune).temperature.min = 38 := by
  simp only [generateMockWeatherData, dateJune]
  norm_num [locationHash_a, sinZero, rndZero, jsRound, Int.floor_eq_iff]

theorem weather_min_rndHalf :
    (generateMockWeatherData sinZero rndHalf "a" dateJune).temperature.min = 36 := by
  simp only [generateMockWeatherData, dateJune]
  norm_num [locationHash_a, sinZero, rndHalf, jsRound, Int.floor_eq_iff]

/-- Counterexample to C7 as stated: for the same `(location, date)` pair the
weather generator yields different forecast records under two different
`Math.random` draw sequences (as happens across two real invocations) — the
minimum temperatures already differ (38 vs 36). -/
theorem determinism_counterexample :
    generateMockWeatherData sinZero rndZero "a" dateJune
      ≠ generateMockWeatherData sinZero rndHalf "a" dateJune := by
  intro h
  have h1 := weather_min_rndZero
  rw [h, weather_min_rndHalf] at h1
  exact absurd h1 (by norm_num)

end Travel

namespace Travel

/-! ## C9: weather classification boundary -/

/-- C9 (amended).  The rainy band has an exclusive lower bound: a
precipitation chance of exactly 70 classifies as "cloudy" (the code tests
`rainChance > 70`), and only a strictly greater chance classifies as
"rainy" — overridden to "snowy" exactly when the maximum temperature is
below 2°C. -/
theorem weather_70_boundary (jsSin : ℚ → ℚ) (rnd : ℕ → ℚ) (location : String)
    (date : JSDate) :
    ((generateMockWeatherData jsSin rnd location date).precipitation_chance = 70 →
      (generateMockWeatherData jsSin rnd location date).condition = "cloudy") ∧
    (70 < (generateMockWeatherData jsSin rnd location date).precipitation_chance →
      (generateMockWeatherData jsSin rnd location date).condition
        = (if (generateMockWeatherData jsSin rnd location date).temperature.max < 2
           then "snowy" else "rainy")) := by
  simp only [generateMockWeatherData]
  constructor
  · intro h
    rw [h]
    simp +decide
  · intro h70
    rw [if_pos h70]
    simp +decide

/-- Witness for C9: the location `"a"` with the all-zero stream has
precipitation chance exactly 70, and the theorem classifies it as cloudy. -/
theorem weather_70_boundary_witness :
    (generateMockWeatherData sinZero rndZero "a" dateJune).condition = "cloudy" :=
  (weather_70_boundary sinZero rndZero "a" dateJune).1 (by
    simp only [generateMockWeatherData, dateJune]
    norm_num [locationHash_a, sinZero, rndZero, jsRound, Int.floor_eq_iff])

/-- Counterexample to C9 as stated: a forecast whose precipitation chance is
exactly 70 is classified "cloudy", not "rainy" — the 70 bound is exclusive. -/
theorem weather_70_counterexample :
    (generateMockWeatherData sinZero rndZero "a" dateJune).precipitation_chance = 70 ∧
    (generateMockWeatherData sinZero rndZero "a" dateJune).condition = "cloudy" ∧
    (generateMockWeatherData sinZero rndZero "a" dateJune).condition ≠ "rainy" := by
  refine ⟨?_, ?_, ?_⟩
  · simp only [generateMockWeatherData, dateJune]
    norm_num [locationHash_a, sinZero, rndZero, jsRound, Int.floor_eq_iff]
  · simp only [generateMockWeatherData, dateJune]
    norm_num [locationHash_a, sinZero, rndZero, jsRound, Int.floor_eq_iff]
  · simp only [generateMockWeatherData, dateJune]
    norm_num [locationHash_a, sinZero, rndZero, jsRound, Int.floor_eq_iff]
    decide

end Travel

namespace Travel

/-! ## C10: the activities pass under distinct names -/

theorem mem_enumActs : ∀ (i : ℕ) (l : List Activity) (p : ℕ × Activity),
    p ∈ enumActs i l → i ≤ p.1 ∧ l.get? (p.1 - i) = some p.2
  | i, [], p, h => absurd h (by simp [enumActs])
  | i, a :: tl, p, h => by
      unfold enumActs at h
      rcases List.mem_cons.mp h with rfl | h
      · simp
      · obtain ⟨h1, h2⟩ := mem_enumActs (i + 1) tl p h
        refine ⟨by omega, ?_⟩
        rw [show p.1 - i = (p.1 - (i + 1)) + 1 by omega]
        simpa using h2

theorem enumActs_mem_of_get? : ∀ (i : ℕ) (l : List Activity) (j : ℕ) (a : Activity),
    l.get? j = some a → (i + j, a) ∈ enumActs i l
  | i, [], j, a, h => by simp at h
  | i, a0 :: tl, 0, a, h => by
      simp at h
      subst h
      simp [enumActs]
  | i, a0 :: tl, j + 1, a, h => by
      simp only [List.get?_cons_succ] at h
      unfold enumActs
      have := enumActs_mem_of_get? (i + 1) tl j a h
      right
      simpa [Nat.add_assoc, Nat.add_comm 1 j] using this

theorem enumActs_fst_ge : ∀ (i : ℕ) (l : List Activity) (p : ℕ × Activity),
    p ∈ enumActs i l → i ≤ p.1 := fun i l p h => (mem_enumActs i l p h).1

theorem enumActs_fst_nodup : ∀ (i : ℕ) (l : List Activity),
    ((enumActs i l).map Prod.fst).Nodup
  | i, [] => by simp [enumActs]
  | i, a :: tl => by
      unfold enumActs
      rw [List.map_cons]
      refine List.nodup_cons.mpr ⟨?_, enumActs_fst_nodup (i + 1) tl⟩
      intro hmem
      rcases List.mem_map.mp hmem with ⟨p, hp, hfst⟩
      have := enumActs_fst_ge (i + 1) tl p hp
      omega

theorem insertDescCost_perm (x : ℕ × Activity) :
    ∀ l : List (ℕ × Activity), List.Perm (insertDescCost x l) (x :: l)
  | [] => List.Perm.refl _
  | y :: ys => by
      unfold insertDescCost
      split
      · exact List.Perm.refl _
      · exact List.Perm.trans ((insertDescCost_perm x ys).cons y) (List.Perm.swap x y ys)

theorem sortActivitiesDesc_perm (acts : List Activity) :
    List.Perm (sortActivitiesDesc acts) (enumActs 0 acts) := by
  unfold sortActivitiesDesc
  generalize enumActs 0 acts = E
  induction E with
  | nil => exact List.Perm.refl _
  | cons x E ih =>
      rw [List.foldr_cons]
      exact List.Perm.trans (insertDescCost_perm _ _) (ih.cons x)

theorem insertDescCost_sorted (x : ℕ × Activity) :
    ∀ l : List (ℕ × Activity),
      l.Pairwise (fun u v => parseCurrency v.2.cost ≤ parseCurrency u.2.cost) →
      (insertDescCost x l).Pairwise
        (fun u v => parseCurrency v.2.cost ≤ parseCurrency u.2.cost)
  | [], _ => by simp [insertDescCost]
  | y :: ys, h => by
      unfold insertDescCost
      obtain ⟨h1, h2⟩ := List.pairwise_cons.mp h
      split
      · rename_i hle
        refine List.pairwise_cons.mpr ⟨?_, h⟩
        intro z hz
        rcases List.mem_cons.mp hz with rfl | hz
        · exact hle
        · exact le_trans (h1 z hz) hle
      · rename_i hgt
        refine List.pairwise_cons.mpr ⟨?_, insertDescCost_sorted x ys h2⟩
        intro z hz
        rcases List.mem_cons.mp ((insertDescCost_perm x ys).mem_iff.mp hz) with rfl | hz
        · exact le_of_lt (lt_of_not_le hgt)
        · exact h1 z hz

theorem sortActivitiesDesc_sorted (acts : List Activity) :
    (sortActivitiesDesc acts).Pairwise
      (fun u v => parseCurrency v.2.cost ≤ parseCurrency u.2.cost) := by
  unfold sortActivitiesDesc
  generalize enumActs 0 acts = E
  induction E with
  | nil => simp
  | cons x E ih =>
      rw [List.foldr_cons]
      exact insertDescCost_sorted x _ ih

end Travel

namespace Travel

theorem sortActivitiesDesc_head (acts : List Activity) (m : ℕ) (am : Activity)
    (hm : acts.get? m = some am)
    (hmax : ∀ j (a : Activity), acts.get? j = some a → j ≠ m →
      parseCurrency a.cost < parseCurrency am.cost) :
    ∃ tail, sortActivitiesDesc acts = (m, am) :: tail := by
  have hperm := sortActivitiesDesc_perm acts
  have hmem : (m, am) ∈ sortActivitiesDesc acts := by
    apply hperm.mem_iff.mpr
    simpa using enumActs_mem_of_get? 0 acts m am hm
  have hsorted := sortActivitiesDesc_sorted acts
  cases hS : sortActivitiesDesc acts with
  | nil =>
      rw [hS] at hmem
      exact absurd hmem (List.not_mem_nil _)
  | cons h tail =>
      rw [hS] at hmem hperm hsorted
      refine ⟨tail, ?_⟩
      have hhE : h ∈ enumActs 0 acts := hperm.mem_iff.mp (by simp)
      obtain ⟨_, hget⟩ := mem_enumActs 0 acts h hhE
      rw [Nat.sub_zero] at hget
      by_cases hcase : h.1 = m
      · have h2 : h.2 = am := by
          rw [hcase] at hget
          rw [hget] at hm
          exact Option.some_inj.mp hm
        rw [show h = (h.1, h.2) from rfl, hcase, h2]
      · exfalso
        rcases List.mem_cons.mp hmem with heq | hmemtail
        · exact hcase (congrArg Prod.fst heq.symm)
        · have hle : parseCurrency am.cost ≤ parseCurrency h.2.cost := by
            have := (List.pairwise_cons.mp hsorted).1 (m, am) hmemtail
            simpa using this
          have hlt := hmax h.1 h.2 hget hcase
          exact absurd hle (not_le.mpr hlt)

theorem findIndexByName_self : ∀ (acts : List Activity) (j : ℕ) (a : Activity),
    (acts.map Activity.name).Nodup → acts.get? j = some a →
    findIndexByName a.name acts = some j
  | [], j, a, _, h => by simp at h
  | x :: tl, 0, a, _, h => by
      simp only [List.get?_cons_zero, Option.some_inj] at h
      subst h
      simp [findIndexByName]
  | x :: tl, j + 1, a, hnames, h => by
      simp only [List.get?_cons_succ] at h
      have hnames2 : x.name ∉ (tl.map Activity.name) ∧ (tl.map Activity.name).Nodup := by
        rw [List.map_cons] at hnames
        exact List.nodup_cons.mp hnames
      obtain ⟨hx, htl⟩ := hnames2
      have hmem : a ∈ tl := List.get?_mem h
      have hne : (x.name == a.name) = false := by
        apply beq_eq_false_iff_ne.mpr
        intro he
        exact hx (by
          rw [he]
          exact List.mem_map.mpr ⟨a, hmem, rfl⟩)
      unfold findIndexByName
      rw [hne]
      simp only [Bool.false_eq_true, if_false, reduceIte]
      rw [findIndexByName_self tl j a htl h]
      rfl

theorem applyActivityReduction_eq_set (reduction : ℚ) (acts : List Activity) (p : ℕ × Bool)
    (hnames : (acts.map Activity.name).Nodup) (a : Activity)
    (hget : acts.get? p.1 = some a) :
    applyActivityReduction reduction acts p
      = acts.set p.1 { a with cost := formatCurrency (parseCurrency a.cost *
          (1 - reduction * (1 + (if p.2 then (2 : ℚ)/10 else 0)))) } := by
  unfold applyActivityReduction
  simp only [hget]
  rw [findIndexByName_self acts p.1 a hnames hget]
  unfold setActivityCost
  simp only [hget]

theorem applyActivityReduction_names (reduction : ℚ) (acts : List Activity) (p : ℕ × Bool) :
    (applyActivityReduction reduction acts p).map Activity.name
      = acts.map Activity.name := by
  unfold applyActivityReduction
  cases hget : acts.get? p.1 with
  | none => rfl
  | some a0 =>
      cases hfind : findIndexByName a0.name acts with
      | none => simp only [hfind]
      | some oi =>
          simp only [hfind]
          unfold setActivityCost
          cases hget2 : acts.get? oi with
          | none => rfl
          | some ai =>
              simp only [hget2]
              rw [List.map_set]
              apply List.ext_get?
              intro n
              by_cases hn : n = oi
              · subst hn
                rw [List.get?_set_eq]
                simp [List.get?_map]
                rw [show acts[n]? = some ai from (List.get?_eq_getElem? acts n).symm.trans hget2]
                rfl
              · exact List.get?_set_ne _ _ (fun h => hn h.symm)

theorem applyActivityReduction_length (reduction : ℚ) (acts : List Activity) (p : ℕ × Bool) :
    (applyActivityReduction reduction acts p).length = acts.length := by
  unfold applyActivityReduction
  cases hget : acts.get? p.1 with
  | none => rfl
  | some a0 =>
      cases hfind : findIndexByName a0.name acts with
      | none => simp only [hfind]
      | some oi =>
          simp only [hfind]
          unfold setActivityCost
          cases hget2 : acts.get? oi with
          | none => rfl
          | some ai =>
              simp only [hget2]
              exact List.length_set acts oi _

end Travel

namespace Travel

theorem lookup_map_false (j : ℕ) :
    ∀ l : List (ℕ × Activity), j ∈ l.map Prod.fst →
      (l.map (fun y => (y.1, false))).lookup j = some false
  | [], h => absurd h (by simp)
  | y :: l, h => by
      rw [List.map_cons, List.lookup_cons]
      by_cases hj : j = y.1
      · rw [show (j == y.1) = true from beq_iff_eq.mpr hj]
      · rw [show (j == y.1) = false from beq_eq_false_iff_ne.mpr hj]
        apply lookup_map_false j l
        have h2 : j ∈ y.1 :: l.map Prod.fst := by
          rw [List.map_cons] at h
          exact h
        rcases List.mem_cons.mp h2 with he | hmem
        · exact absurd he hj
        · exact hmem

theorem foldl_applyActivityReduction_spec (reduction : ℚ) :
    ∀ (L : List (ℕ × Bool)) (acts : List Activity),
      (acts.map Activity.name).Nodup →
      (L.map Prod.fst).Nodup →
      (∀ p ∈ L, p.1 < acts.length) →
      ∀ j : ℕ,
        (j ∉ L.map Prod.fst →
          (L.foldl (applyActivityReduction reduction) acts).get? j = acts.get? j) ∧
        (∀ (b : Bool) (a : Activity), L.lookup j = some b → acts.get? j = some a →
          (L.foldl (applyActivityReduction reduction) acts).get? j
            = some { a with cost := formatCurrency (parseCurrency a.cost *
                (1 - reduction * (1 + (if b then (2 : ℚ)/10 else 0)))) })
  | [], acts, _, _, _, j => by
      constructor
      · intro _
        rfl
      · intro b a hlk _
        simp [List.lookup] at hlk
  | (pk, pb) :: L', acts, hnames, hkeys, hbound, j => by
      obtain ⟨a0, hget⟩ : ∃ a0, acts.get? pk = some a0 := by
        cases hg : acts.get? pk with
        | none =>
            have h1 := List.get?_eq_none.mp hg
            have h2 := hbound (pk, pb) (by simp)
            simp at h2
            omega
        | some a0 => exact ⟨a0, rfl⟩
      have hstep := applyActivityReduction_eq_set reduction acts (pk, pb) hnames a0 hget
      have hnames' : ((applyActivityReduction reduction acts (pk, pb)).map Activity.name).Nodup := by
        rw [applyActivityReduction_names]
        exact hnames
      have hkeys2 : pk ∉ L'.map Prod.fst ∧ (L'.map Prod.fst).Nodup := by
        rw [List.map_cons] at hkeys
        exact List.nodup_cons.mp hkeys
      have hkeys' : (L'.map Prod.fst).Nodup := hkeys2.2
      have hnotin : pk ∉ L'.map Prod.fst := hkeys2.1
      have hbound' : ∀ q ∈ L', q.1 < (applyActivityReduction reduction acts (pk, pb)).length := by
        intro q hq
        rw [applyActivityReduction_length]
        exact hbound q (by simp [hq])
      have IH := foldl_applyActivityReduction_spec reduction L'
        (applyActivityReduction reduction acts (pk, pb)) hnames' hkeys' hbound'
      rw [List.foldl_cons]
      constructor
      · intro hj
        have hj1 : j ≠ pk := by
          intro he
          exact hj (by simp [he])
        have hj2 : j ∉ L'.map Prod.fst := by
          intro he
          exact hj (by simp [he])
        rw [(IH j).1 hj2, hstep]
        exact List.get?_set_ne _ _ (fun he => hj1 he.symm)
      · intro b a hlk hgetj
        by_cases hj : j = pk
        · subst hj
          rw [List.lookup_cons, show (j == j) = true from beq_iff_eq.mpr rfl] at hlk
          have hb : b = pb := (Option.some_inj.mp hlk).symm
          have ha : a = a0 := by
            rw [hget] at hgetj
            exact (Option.some_inj.mp hgetj).symm
          subst hb
          subst ha
          rw [(IH j).1 hnotin, hstep, List.get?_set_eq, hget]
          rfl
        · have hlk' : List.lookup j L' = some b := by
            rw [List.lookup_cons, show (j == pk) = false from beq_eq_false_iff_ne.mpr hj] at hlk
            exact hlk
          have hgetj' : (applyActivityReduction reduction acts (pk, pb)).get? j = some a := by
            rw [hstep, List.get?_set_ne _ _ (fun he => hj he.symm)]
            exact hgetj
          exact (IH j).2 b a hlk' hgetj'

end Travel

namespace Travel

theorem foldl_applyActivityReduction_length (reduction : ℚ) :
    ∀ (L : List (ℕ × Bool)) (acts : List Activity),
      (L.foldl (applyActivityReduction reduction) acts).length = acts.length
  | [], acts => rfl
  | p :: L, acts => by
      rw [List.foldl_cons, foldl_applyActivityReduction_length reduction L,
        applyActivityReduction_length]

theorem optimizeActivitiesDay_distinct (reduction : ℚ) (day : Day)
    (hnames : (day.activities.map Activity.name).Nodup)
    (m : ℕ) (am : Activity) (hm : day.activities.get? m = some am)
    (hmax : ∀ j (a : Activity), day.activities.get? j = some a → j ≠ m →
      parseCurrency a.cost < parseCurrency am.cost) :
    ∀ j (a : Activity), day.activities.get? j = some a →
      (optimizeActivitiesDay reduction day).activities.get? j
        = some { a with cost := formatCurrency (parseCurrency a.cost *
            (1 - reduction * (1 + (if j = m then (2 : ℚ)/10 else 0)))) } := by
  obtain ⟨tail, hS⟩ := sortActivitiesDesc_head day.activities m am hm hmax
  intro j a hja
  have hL : boostFlags (sortActivitiesDesc day.activities)
      = (m, true) :: tail.map (fun y => (y.1, false)) := by
    rw [hS]
    rfl
  have hkeysEq : (((m, true) :: tail.map (fun y => (y.1, false))).map Prod.fst)
      = (sortActivitiesDesc day.activities).map Prod.fst := by
    rw [hS]
    simp [List.map_map, Function.comp]
  have hkeysNodup : ((sortActivitiesDesc day.activities).map Prod.fst).Nodup :=
    ((sortActivitiesDesc_perm day.activities).map Prod.fst).nodup_iff.mpr
      (enumActs_fst_nodup 0 day.activities)
  have hbound : ∀ p ∈ (m, true) :: tail.map (fun y => (y.1, false)),
      p.1 < day.activities.length := by
    intro p hp
    rcases List.mem_cons.mp hp with rfl | hp
    · obtain ⟨hlt, _⟩ := List.get?_eq_some.mp hm
      simpa using hlt
    · rcases List.mem_map.mp hp with ⟨y, hy, rfl⟩
      have hyS : y ∈ sortActivitiesDesc day.activities := by
        rw [hS]
        simp [hy]
      have hyE : y ∈ enumActs 0 day.activities :=
        (sortActivitiesDesc_perm _).mem_iff.mp hyS
      obtain ⟨_, hgy⟩ := mem_enumActs 0 _ y hyE
      rw [Nat.sub_zero] at hgy
      obtain ⟨hlt, _⟩ := List.get?_eq_some.mp hgy
      simpa using hlt
  have hspec := foldl_applyActivityReduction_spec reduction
    ((m, true) :: tail.map (fun y => (y.1, false))) day.activities hnames
    (by rw [hkeysEq]; exact hkeysNodup) hbound
  show ((boostFlags (sortActivitiesDesc day.activities)).foldl
      (applyActivityReduction reduction) day.activities).get? j = _
  rw [hL]
  by_cases hj : j = m
  · subst hj
    have hlkup : (((j, true) : ℕ × Bool) :: tail.map (fun y => (y.1, false))).lookup j
        = some true := by
      rw [List.lookup_cons, show (j == j) = true from beq_iff_eq.mpr rfl]
    have hres := (hspec j).2 true a hlkup hja
    simpa using hres
  · have hjmem : (j, a) ∈ enumActs 0 day.activities := by
      simpa using enumActs_mem_of_get? 0 _ j a hja
    have hjS : (j, a) ∈ sortActivitiesDesc day.activities :=
      (sortActivitiesDesc_perm _).mem_iff.mpr hjmem
    rw [hS] at hjS
    rcases List.mem_cons.mp hjS with he | hjtail
    · exact absurd (congrArg Prod.fst he) hj
    · have hjkeys : j ∈ tail.map Prod.fst := List.mem_map.mpr ⟨(j, a), hjtail, rfl⟩
      have hlkup : (((m, true) : ℕ × Bool) :: tail.map (fun y => (y.1, false))).lookup j
          = some false := by
        rw [List.lookup_cons, show (j == m) = false from beq_eq_false_iff_ne.mpr hj]
        exact lookup_map_false j tail hjkeys
      have hres := (hspec j).2 false a hlkup hja
      simpa [hj] using hres

/-- C10.  The activities pass on a day with pairwise-distinct activity names
and a unique most expensive activity (at index `m`): every activity's cost is
rewritten to `formatCurrency(oldCost × (1 - adj))`, where `adj` is the
computed reduction percentage times `1.2` for the most expensive activity
and the plain reduction percentage for all others; every other field of the
day and of each activity is unchanged.  The name-based `findIndex` lookup
locates each slot correctly exactly because names are distinct. -/
theorem optimizeActivities_distinct_names (days : List Day) (s t : ℚ) (k : ℕ)
    (d : Day) (hk : days.get? k = some d)
    (hnames : (d.activities.map Activity.name).Nodup)
    (m : ℕ) (am : Activity) (hm : d.activities.get? m = some am)
    (hmax : ∀ j (a : Activity), d.activities.get? j = some a → j ≠ m →
      parseCurrency a.cost < parseCurrency am.cost) :
    ∃ d', (optimizeActivities days s t).get? k = some d' ∧
      d'.date = d.date ∧ d'.accommodation = d.accommodation ∧
      d'.transportation = d.transportation ∧
      d'.alternativeActivities = d.alternativeActivities ∧
      d'.activities.length = d.activities.length ∧
      ∀ j (a : Activity), d.activities.get? j = some a →
        d'.activities.get? j
          = some { a with cost := formatCurrency (parseCurrency a.cost *
              (1 - reductionPercentage s t (2/5) *
                (1 + (if j = m then (2 : ℚ)/10 else 0)))) } := by
  refine ⟨optimizeActivitiesDay (reductionPercentage s t (2/5)) d, ?_, rfl, rfl, rfl, rfl,
    ?_, ?_⟩
  · unfold optimizeActivities
    rw [List.get?_map, hk]
    rfl
  · exact foldl_applyActivityReduction_length _ _ _
  · exact fun j a hja =>
      optimizeActivitiesDay_distinct (reductionPercentage s t (2/5)) d hnames m am hm hmax
        j a hja

end Travel

namespace Travel

theorem optimizeActivities_distinct_names_witness :
    ∃ d', (optimizeActivities [dayB] 20 40).get? 0 = some d' ∧
      d'.date = dayB.date ∧ d'.accommodation = dayB.accommodation ∧
      d'.transportation = dayB.transportation ∧
      d'.alternativeActivities = dayB.alternativeActivities ∧
      d'.activities.length = dayB.activities.length ∧
      ∀ j (a : Activity), dayB.activities.get? j = some a →
        d'.activities.get? j
          = some { a with cost := formatCurrency (parseCurrency a.cost *
              (1 - reductionPercentage 20 40 (2/5) *
                (1 + (if j = 0 then (2 : ℚ)/10 else 0)))) } :=
  optimizeActivities_distinct_names [dayB] 20 40 0 dayB rfl (by decide) 0 actMuseum rfl
    (by
      intro j a hja hj
      match j with
      | 0 => exact absurd rfl hj
      | 1 =>
          obtain rfl : actPark = a := Option.some_inj.mp
            ((show dayB.activities.get? 1 = some actPark from rfl).symm.trans hja)
          rw [show actPark.cost = "$10.00" from rfl,
            show actMuseum.cost = "$30.00" from rfl, parse_10, parse_30]
          norm_num
      | n + 2 => simp [dayB] at hja)

end Travel
